import Mathlib

/-!
Verification of the `hangout` submission backend (Azure Functions, TypeScript):
a shallow embedding of `api/src/validation.ts`, `api/src/utils/rateLimiter.ts`,
`api/src/services/emailService.ts` and `api/src/functions/submitPlan.ts`,
together with theorems settling the specification's claims.

Strings are modelled as Lean `String`/`List Char`; JS `Date.now()` timestamps as
`Nat` (epoch milliseconds); JS `number` results that can go negative as `Int`.
Impure library calls (`new Date(...)` parsing, `Date.now()`, `toISOString`) are
passed in as explicit parameters or modelled by executable functions, documented
at each definition.
-/

namespace Hangout

/-! ## Character classes (JS regular-expression semantics)

`isJsWhitespace` models the JS `\s` class (also the set removed by
`String.prototype.trim`): ASCII whitespace, NBSP, the Unicode space
separators, line/paragraph separators and the BOM. -/

def isJsWhitespace (c : Char) : Bool :=
  c = ' ' || c = '\t' || c = '\n' || c = '\r' ||
  c = '\x0b' || c = '\x0c' || c.toNat = 0xa0 || c.toNat = 0x1680 ||
  (0x2000 ≤ c.toNat && c.toNat ≤ 0x200a) ||
  c.toNat = 0x2028 || c.toNat = 0x2029 || c.toNat = 0x202f ||
  c.toNat = 0x205f || c.toNat = 0x3000 || c.toNat = 0xfeff

/-- JS `\w`: ASCII letters, digits and underscore. -/
def isWordChar (c : Char) : Bool :=
  ('a' ≤ c && c ≤ 'z') || ('A' ≤ c && c ≤ 'Z') || ('0' ≤ c && c ≤ '9') || c = '_'

def isAsciiDigit (c : Char) : Bool := '0' ≤ c && c ≤ '9'

/-! ## List-of-characters utilities -/

/-- `startsWithL pat l`: `pat` is an initial segment of `l`. -/
def startsWithL : List Char → List Char → Bool
  | [], _ => true
  | _ :: _, [] => false
  | p :: ps, c :: cs => p = c && startsWithL ps cs

/-- `containsL pat l`: `pat` occurs as a contiguous segment of `l`. -/
def containsL (pat : List Char) : List Char → Bool
  | [] => startsWithL pat []
  | c :: cs => startsWithL pat (c :: cs) || containsL pat cs

def toLowerL (l : List Char) : List Char := l.map Char.toLower

/-! ## `sanitizeString` (validation.ts, bottom)

The source pipeline:
`input.trim().replace(/[<>]/g,'').replace(/[\r\n\t]/g,' ')
      .replace(/\s+/g,' ').replace(/[^\w\s\-'.,!?()&:]/g,'').substring(0,500)`.
Each stage is one definition below, composed in `sanitizeL`. -/

def trimL (l : List Char) : List Char :=
  ((l.dropWhile isJsWhitespace).reverse.dropWhile isJsWhitespace).reverse

/-- `.replace(/[<>]/g, '')` -/
def removeAngles (l : List Char) : List Char :=
  l.filter (fun c => !(c = '<' || c = '>'))

/-- `.replace(/[\r\n\t]/g, ' ')` -/
def crlfToSpace (l : List Char) : List Char :=
  l.map (fun c => if c = '\r' || c = '\n' || c = '\t' then ' ' else c)

/-- `.replace(/\s+/g, ' ')`: each maximal whitespace run becomes one space.
The flag records whether the previous character was inside a whitespace run. -/
def collapseWsAux : Bool → List Char → List Char
  | _, [] => []
  | prevWs, c :: rest =>
    if isJsWhitespace c then
      if prevWs then collapseWsAux true rest
      else ' ' :: collapseWsAux true rest
    else c :: collapseWsAux false rest

def collapseWs (l : List Char) : List Char := collapseWsAux false l

/-- The allow-list of `/[^\w\s\-'.,!?()&:]/`. -/
def isSanitizeAllowed (c : Char) : Bool :=
  isWordChar c || isJsWhitespace c ||
  c = '-' || c = '\'' || c = '.' || c = ',' || c = '!' || c = '?' ||
  c = '(' || c = ')' || c = '&' || c = ':'

def sanitizeL (l : List Char) : List Char :=
  ((collapseWs (crlfToSpace (removeAngles (trimL l)))).filter isSanitizeAllowed).take 500

def sanitizeString (s : String) : String := ⟨sanitizeL s.data⟩

/-! ## RateLimiter (rateLimiter.ts) -/

structure RateLimitEntry where
  count : Nat
  resetTime : Nat
deriving DecidableEq, Repr

structure RateLimitConfig where
  windowMs : Nat
  maxRequests : Nat
deriving DecidableEq, Repr

/-- The `requests: Map<string, RateLimitEntry>` field, as an association list
in insertion order. -/
def RLState : Type := List (String × RateLimitEntry)

instance : DecidableEq RLState := by unfold RLState; infer_instance

def rlGet (st : RLState) (k : String) : Option RateLimitEntry :=
  match st with
  | [] => none
  | (k', e) :: rest => if k' = k then some e else rlGet rest k

def rlSet (st : RLState) (k : String) (e : RateLimitEntry) : RLState :=
  match st with
  | [] => [(k, e)]
  | (k', e') :: rest => if k' = k then (k, e) :: rest else (k', e') :: rlSet rest k e

structure RateLimitResult where
  allowed : Bool
  resetTime : Nat
  remaining : Int
deriving DecidableEq, Repr

/-- `RateLimiter.isAllowed`, with `Date.now()` passed in as `now`.  Returns the
result together with the updated `requests` map.  `remaining` is `Int` because
JS computes `maxRequests - count` with signed arithmetic. -/
def isAllowed (cfg : RateLimitConfig) (st : RLState) (identifier : String)
    (now : Nat) : RateLimitResult × RLState :=
  match rlGet st identifier with
  | none =>
    (⟨true, now + cfg.windowMs, (cfg.maxRequests : Int) - 1⟩,
     rlSet st identifier ⟨1, now + cfg.windowMs⟩)
  | some entry =>
    if now ≥ entry.resetTime then
      (⟨true, now + cfg.windowMs, (cfg.maxRequests : Int) - 1⟩,
       rlSet st identifier ⟨1, now + cfg.windowMs⟩)
    else if entry.count ≥ cfg.maxRequests then
      (⟨false, entry.resetTime, 0⟩, st)
    else
      (⟨true, entry.resetTime, (cfg.maxRequests : Int) - (entry.count + 1)⟩,
       rlSet st identifier ⟨entry.count + 1, entry.resetTime⟩)

/-- Iterate `isAllowed` on one key at the given sequence of timestamps,
keeping only the final map (used for the multi-call rate-limit scenario). -/
def callSeq (cfg : RateLimitConfig) (st : RLState) (k : String) : List Nat → RLState
  | [] => st
  | t :: ts => callSeq cfg (isAllowed cfg st k t).2 k ts

/-- `submitPlanRateLimiter`: 10 requests per 15 minutes per IP. -/
def submitPlanRateLimitConfig : RateLimitConfig := ⟨15 * 60 * 1000, 10⟩

/-- `globalRateLimiter`: 100 requests per minute. -/
def globalRateLimitConfig : RateLimitConfig := ⟨60 * 1000, 100⟩

/-! ## JSON values and `JSON.stringify`

The request body after `JSON.parse` is an arbitrary JSON value.  Numbers are
modelled as integers (no claim involves fractional numbers and JS prints
integral numbers without a decimal point). -/

inductive Json where
  | null : Json
  | bool (b : Bool) : Json
  | num (n : Int) : Json
  | str (s : String) : Json
  | arr (elems : List Json) : Json
  | obj (fields : List (String × Json)) : Json

def hexDigitChar (n : Nat) : Char :=
  if n < 10 then Char.ofNat (48 + n) else Char.ofNat (87 + n)

/-- Escaping of one character inside a JSON string literal, as
`JSON.stringify` does it. -/
def jsonEscapeChar (c : Char) : List Char :=
  if c = '"' then ['\\', '"']
  else if c = '\\' then ['\\', '\\']
  else if c = '\x08' then ['\\', 'b']
  else if c = '\t' then ['\\', 't']
  else if c = '\n' then ['\\', 'n']
  else if c = '\x0c' then ['\\', 'f']
  else if c = '\r' then ['\\', 'r']
  else if c.toNat < 32 then
    ['\\', 'u', '0', '0', hexDigitChar (c.toNat / 16), hexDigitChar (c.toNat % 16)]
  else [c]

def jsonQuote (s : String) : String :=
  ⟨'"' :: ((s.data.map jsonEscapeChar).flatten ++ ['"'])⟩

mutual
/-- `JSON.stringify` (object keys in property insertion order, which is what
the V8 runtime serializes). -/
def Json.stringify : Json → String
  | .null => "null"
  | .bool true => "true"
  | .bool false => "false"
  | .num n => toString n
  | .str s => jsonQuote s
  | .arr es => "[" ++ stringifyElems es ++ "]"
  | .obj fs => "\x7b" ++ stringifyFields fs ++ "\x7d"

def stringifyElems : List Json → String
  | [] => ""
  | [e] => e.stringify
  | e :: e' :: rest => e.stringify ++ "," ++ stringifyElems (e' :: rest)

def stringifyFields : List (String × Json) → String
  | [] => ""
  | [(k, v)] => jsonQuote k ++ ":" ++ v.stringify
  | (k, v) :: f :: rest => jsonQuote k ++ ":" ++ v.stringify ++ "," ++ stringifyFields (f :: rest)
end

/-- JS property lookup `data.k` on a parsed JSON value; `none` plays the role
of `undefined` (arrays and primitives have none of the fields involved). -/
def Json.getField : Json → String → Option Json
  | .obj fs, k => lookupField fs k
  | _, _ => none
where
  lookupField : List (String × Json) → String → Option Json
    | [], _ => none
    | (k', v) :: rest, k => if k' = k then some v else lookupField rest k

/-- JS truthiness of a JSON value. -/
def Json.truthy : Json → Bool
  | .null => false
  | .bool b => b
  | .num n => n ≠ 0
  | .str s => s ≠ ""
  | .arr _ => true
  | .obj _ => true

/-- `!data || typeof data !== 'object'` is false exactly for arrays and
objects (both truthy, both `typeof 'object'`; `null` is falsy). -/
def Json.isTruthyObject : Json → Bool
  | .arr _ => true
  | .obj _ => true
  | _ => false

/-! ## The suspicious-pattern scan (validation.ts, lines 13-29)

All seven regexes carry the `i` flag; we run the matchers over the
`Char.toLower`-image of the serialized payload (the patterns are ASCII).
Each matcher decides whether the regex has a match somewhere in the string,
which is what `RegExp.test` reports on a freshly created regex. -/

/-- Generic scan: does `f` fire at some suffix? -/
def scanAny (f : List Char → Bool) : List Char → Bool
  | [] => f []
  | c :: rest => f (c :: rest) || scanAny f rest

def patScriptOpen : List Char := "<script".data
def patScriptClose : List Char := "</script>".data
def patJavascript : List Char := "javascript:".data
def patVbscript : List Char := "vbscript:".data
def patDataHtml : List Char := "data:text/html".data
def patEval : List Char := "eval".data
def patExpression : List Char := "expression".data

/-- A character the JS `.` (no `s` flag) matches: anything but the four
line terminators. -/
def isDotChar (c : Char) : Bool :=
  !(c = '\n' || c = '\r' || c.toNat = 0x2028 || c.toNat = 0x2029)

/-- After `<script[^>]*>` was consumed up to the `>`: look for `</script>`
reachable through `.`-matchable characters (the `.*?` part). -/
def scriptClose : List Char → Bool
  | [] => false
  | c :: rest => startsWithL patScriptClose (c :: rest) || (isDotChar c && scriptClose rest)

/-- Consume `[^>]*>` (the first `>` is the only possible bracket end),
then look for the closing tag. -/
def afterScriptOpen : List Char → Bool
  | [] => false
  | c :: rest => if c = '>' then scriptClose rest else afterScriptOpen rest

/-- `/<script[^>]*>.*?<\/script>/i` has a match. -/
def hasScriptTag (l : List Char) : Bool :=
  scanAny (fun t => startsWithL patScriptOpen t && afterScriptOpen (t.drop 7)) l

/-- `/on\w+\s*=/i` has a match: `on`, at least one word character (the whole
maximal run, since backtracking cannot help against `\s*=`), optional
whitespace, `=`. -/
def hasEventHandler (l : List Char) : Bool :=
  scanAny
    (fun t =>
      startsWithL ['o', 'n'] t &&
      (match t.drop 2 with
       | [] => false
       | c :: rest =>
         isWordChar c &&
         (match (rest.dropWhile isWordChar).dropWhile isJsWhitespace with
          | '=' :: _ => true
          | _ => false))) l

/-- `/name\s*\(/`-shaped call pattern (`eval\s*\(`, `expression\s*\(`). -/
def hasCallPattern (name : List Char) (l : List Char) : Bool :=
  scanAny
    (fun t =>
      startsWithL name t &&
      (match (t.drop name.length).dropWhile isJsWhitespace with
       | '(' :: _ => true
       | _ => false)) l

/-- The `for (const pattern of suspiciousPatterns)` loop: does any of the
seven patterns match the serialized payload (case-insensitively)? -/
def isSuspicious (s : String) : Bool :=
  hasScriptTag (toLowerL s.data) ||
  containsL patJavascript (toLowerL s.data) ||
  hasEventHandler (toLowerL s.data) ||
  hasCallPattern patEval (toLowerL s.data) ||
  hasCallPattern patExpression (toLowerL s.data) ||
  containsL patVbscript (toLowerL s.data) ||
  containsL patDataHtml (toLowerL s.data)

/-! ## `validatePlanSubmission` (validation.ts)

`new Date(...)` parsing and the current time are impure, so the validator is
parameterized by `parseDate` (epoch milliseconds of a successfully parsed
date string, `none` for `NaN`), the `[oneYearAgo, oneYearFromNow]` range
bounds, and `nowIso` (the `new Date().toISOString()` stamp placed into
`sanitized.submittedAt`). -/

structure ValidationError where
  field : String
  message : String
deriving DecidableEq, Repr

structure PlanSubmission where
  name : String
  date : String
  time : String
  activities : List String
  customActivity : Option String
  submittedAt : String
  userAgent : Option String
  ipAddress : Option String
deriving DecidableEq, Repr

structure ValidationResult where
  isValid : Bool
  errors : List ValidationError
  sanitized : Option PlanSubmission
deriving DecidableEq, Repr

def errBodyRequired : ValidationError :=
  ⟨"body", "Request body is required and must be an object"⟩
def errMalicious : ValidationError :=
  ⟨"body", "Request contains potentially malicious content"⟩
def errTooLarge : ValidationError :=
  ⟨"body", "Request payload too large"⟩
def errNameRequired : ValidationError :=
  ⟨"name", "Name is required and must be a string"⟩
def errNameEmpty : ValidationError :=
  ⟨"name", "Name cannot be empty"⟩
def errNameTooLong : ValidationError :=
  ⟨"name", "Name must be less than 100 characters"⟩
def errNameCharset : ValidationError :=
  ⟨"name", "Name contains invalid characters"⟩
def errDateRequired : ValidationError :=
  ⟨"date", "Date is required and must be a string"⟩
def errDateInvalid : ValidationError :=
  ⟨"date", "Date must be a valid ISO date string"⟩
def errDateRange : ValidationError :=
  ⟨"date", "Date must be within a reasonable range (past year to next year)"⟩
def errTimeRequired : ValidationError :=
  ⟨"time", "Time is required and must be a string"⟩
def errTimeFormat : ValidationError :=
  ⟨"time", "Time must be in HH:MM format"⟩
def errActivitiesArray : ValidationError :=
  ⟨"activities", "Activities must be an array"⟩
def errActivitiesEmpty : ValidationError :=
  ⟨"activities", "At least one activity is required"⟩
def errActivitiesTooMany : ValidationError :=
  ⟨"activities", "Too many activities (maximum 20 allowed)"⟩
def errActivitiesInvalid : ValidationError :=
  ⟨"activities", "All activities must be valid strings (max 100 chars, alphanumeric and basic punctuation only)"⟩
def errCustomString : ValidationError :=
  ⟨"customActivity", "Custom activity must be a string"⟩
def errCustomTooLong : ValidationError :=
  ⟨"customActivity", "Custom activity must be less than 200 characters"⟩
def errCustomCharset : ValidationError :=
  ⟨"customActivity", "Custom activity contains invalid characters"⟩

/-- The `name` charset `/^[a-zA-Z0-9\s\-'.,]+$/`. -/
def isNameChar (c : Char) : Bool :=
  ('a' ≤ c && c ≤ 'z') || ('A' ≤ c && c ≤ 'Z') || ('0' ≤ c && c ≤ '9') ||
  isJsWhitespace c || c = '-' || c = '\'' || c = '.' || c = ','

def nameCharsOk (s : String) : Bool :=
  !s.data.isEmpty && s.data.all isNameChar

/-- The activity charset `/^[a-zA-Z0-9\s\-'.,!?()&:]+$/`. -/
def isActivityChar (c : Char) : Bool :=
  ('a' ≤ c && c ≤ 'z') || ('A' ≤ c && c ≤ 'Z') || ('0' ≤ c && c ≤ '9') ||
  isJsWhitespace c || c = '-' || c = '\'' || c = '.' || c = ',' ||
  c = '!' || c = '?' || c = '(' || c = ')' || c = '&' || c = ':'

def activityCharsOk (s : String) : Bool :=
  !s.data.isEmpty && s.data.all isActivityChar

/-- `/^([0-1]?[0-9]|2[0-3]):[0-5][0-9]$/`: the hour is one digit `0-9`, two
digits with first `0`/`1`, or `20`-`23`; the minute is exactly two digits
`00`-`59`. -/
def timeMatches (l : List Char) : Bool :=
  match l with
  | [h, ':', m1, m2] =>
    isAsciiDigit h && ('0' ≤ m1 && m1 ≤ '5') && isAsciiDigit m2
  | [h1, h2, ':', m1, m2] =>
    (((h1 = '0' || h1 = '1') && isAsciiDigit h2) ||
      (h1 = '2' && ('0' ≤ h2 && h2 ≤ '3'))) &&
    ('0' ≤ m1 && m1 ≤ '5') && isAsciiDigit m2
  | _ => false

/-- `typeof v === 'string'` together with truthiness: the branch guard
`!data.f || typeof data.f !== 'string'` fails exactly on nonempty strings. -/
def asTruthyStr : Option Json → Option String
  | some (.str s) => if s = "" then none else some s
  | _ => none

/-- Validation of `data.name` (validation.ts lines 38-47). -/
def nameErrors (v : Option Json) : List ValidationError :=
  match asTruthyStr v with
  | none => [errNameRequired]
  | some s =>
    if (trimL s.data).isEmpty then [errNameEmpty]
    else if s.length > 100 then [errNameTooLong]
    else if !nameCharsOk s then [errNameCharset]
    else []

/-- Validation of `data.date` (lines 49-67). -/
def dateErrors (parseDate : String → Option Int) (lowBound highBound : Int)
    (v : Option Json) : List ValidationError :=
  match asTruthyStr v with
  | none => [errDateRequired]
  | some s =>
    match parseDate s with
    | none => [errDateInvalid]
    | some t => if t < lowBound || t > highBound then [errDateRange] else []

/-- Validation of `data.time` (lines 69-74). -/
def timeErrors (v : Option Json) : List ValidationError :=
  match asTruthyStr v with
  | none => [errTimeRequired]
  | some s => if !timeMatches s.data then [errTimeFormat] else []

/-- One activity entry is invalid when it is not a string, trims to empty,
exceeds 100 characters, or fails the charset. -/
def activityEntryInvalid : Json → Bool
  | .str s => (trimL s.data).isEmpty || s.length > 100 || !activityCharsOk s
  | _ => true

/-- Validation of `data.activities` (lines 76-93). -/
def activitiesErrors (v : Option Json) : List ValidationError :=
  match v with
  | some (.arr es) =>
    if es.isEmpty then [errActivitiesEmpty]
    else if es.length > 20 then [errActivitiesTooMany]
    else if !(es.filter activityEntryInvalid).isEmpty then [errActivitiesInvalid]
    else []
  | _ => [errActivitiesArray]

/-- Validation of `data.customActivity` (lines 95-104): skipped when
`undefined` or `null`. -/
def customActivityErrors (v : Option Json) : List ValidationError :=
  match v with
  | none => []
  | some .null => []
  | some (.str s) =>
    if s.length > 200 then [errCustomTooLong]
    else if !(trimL s.data).isEmpty && !activityCharsOk s then [errCustomCharset]
    else []
  | some _ => [errCustomString]

/-- String payload of a JSON value known to be a string (used only on the
success path, where the field checks above have established it). -/
def strOf : Option Json → String
  | some (.str s) => s
  | _ => ""

/-- `data.f ? sanitizeString(data.f) : undefined` for the optional
string-typed fields of the sanitized record.  (A truthy non-string here
would make the JS `sanitizeString` throw; the gateway only ever stores a
string or `null` in these fields, and we model the crash-free cases.) -/
def sanitizeOptField (v : Option Json) : Option String :=
  match asTruthyStr v with
  | some s => some (sanitizeString s)
  | none => none

def sanitizeActivity : Json → String
  | .str s => sanitizeString s
  | _ => ""

def nameKey : String := "name"
def dateKey : String := "date"
def timeKey : String := "time"
def activitiesKey : String := "activities"
def customActivityKey : String := "customActivity"
def userAgentKey : String := "userAgent"
def ipAddressKey : String := "ipAddress"

/-- `validatePlanSubmission` (validation.ts lines 3-121). -/
def validatePlanSubmission (parseDate : String → Option Int)
    (lowBound highBound : Int) (nowIso : String) (data : Json) : ValidationResult :=
  if !data.isTruthyObject then ⟨false, [errBodyRequired], none⟩
  else
    if isSuspicious data.stringify then ⟨false, [errMalicious], none⟩
    else if data.stringify.length > 10000 then ⟨false, [errTooLarge], none⟩
    else
      let errs :=
        nameErrors (data.getField nameKey) ++
        dateErrors parseDate lowBound highBound (data.getField dateKey) ++
        timeErrors (data.getField timeKey) ++
        activitiesErrors (data.getField activitiesKey) ++
        customActivityErrors (data.getField customActivityKey)
      if !errs.isEmpty then ⟨false, errs, none⟩
      else
        ⟨true, [],
         some
           { name := sanitizeString (strOf (data.getField nameKey))
             date := strOf (data.getField dateKey)
             time := strOf (data.getField timeKey)
             activities :=
               (match data.getField activitiesKey with
                | some (.arr es) => es.map sanitizeActivity
                | _ => [])
             customActivity := sanitizeOptField (data.getField customActivityKey)
             submittedAt := nowIso
             userAgent := sanitizeOptField (data.getField userAgentKey)
             ipAddress := sanitizeOptField (data.getField ipAddressKey) }⟩

/-! ## EmailService (emailService.ts)

`escapeHtml`, the HTML template, and the retry loop of
`sendPlanNotification`.  The locale date formatting done by
`formatDate`/`formatDateTime` calls the JS `Date` library; it is modelled
below for the ISO strings this application produces (all other inputs are an
invalid date), rendering in UTC as the Azure Functions runtime does. -/

def ampEntity : String := "&amp;"
def ltEntity : String := "&lt;"
def gtEntity : String := "&gt;"
def quotEntity : String := "&quot;"
def aposEntity : String := "&#039;"

/-- The character map of `EmailService.escapeHtml`. -/
def escapeHtmlChar (c : Char) : List Char :=
  if c = '&' then ampEntity.data
  else if c = '<' then ltEntity.data
  else if c = '>' then gtEntity.data
  else if c = '"' then quotEntity.data
  else if c = '\'' then aposEntity.data
  else [c]

def escapeHtmlL (l : List Char) : List Char := (l.map escapeHtmlChar).flatten

/-- `EmailService.escapeHtml`: `text.replace(/[&<>"']/g, m => map[m])`. -/
def escapeHtml (s : String) : String := ⟨escapeHtmlL s.data⟩

/-- Decimal digit characters of a natural number, most significant first
(fuel-based: `n` itself bounds the number of digits). -/
def natDigitsAux : Nat → Nat → List Char → List Char
  | 0, _, acc => acc
  | fuel + 1, n, acc =>
    if n < 10 then Char.ofNat (48 + n) :: acc
    else natDigitsAux fuel (n / 10) (Char.ofNat (48 + n % 10) :: acc)

def natDigits (n : Nat) : List Char := natDigitsAux (n + 1) n []

def twoDigits (n : Nat) : List Char :=
  if n < 10 then '0' :: natDigits n else natDigits n

def isLeapYear (y : Nat) : Bool := (y % 4 = 0 && y % 100 ≠ 0) || y % 400 = 0

def daysInMonth (y m : Nat) : Nat :=
  if m = 2 then (if isLeapYear y then 29 else 28)
  else if m = 4 || m = 6 || m = 9 || m = 11 then 30
  else 31

def digitVal (c : Char) : Nat := c.toNat - 48

/-- Modelled from the JS `Date` library: `new Date(s)` succeeds on a
date-only ISO string `YYYY-MM-DD` naming a real calendar day (this is the
only date format the application produces; all other strings are modelled
as an invalid date). -/
def parseIsoDate (s : String) : Option (Nat × Nat × Nat) :=
  match s.data with
  | [y1, y2, y3, y4, '-', mo1, mo2, '-', d1, d2] =>
    if [y1, y2, y3, y4, mo1, mo2, d1, d2].all isAsciiDigit then
      let y := ((digitVal y1 * 10 + digitVal y2) * 10 + digitVal y3) * 10 + digitVal y4
      let m := digitVal mo1 * 10 + digitVal mo2
      let d := digitVal d1 * 10 + digitVal d2
      if 1 ≤ m && m ≤ 12 && 1 ≤ d && d ≤ daysInMonth y m then some (y, m, d)
      else none
    else none
  | _ => none

/-- Days in the months before month `m` of a common year. -/
def daysBeforeMonth (m : Nat) : Nat :=
  match m with
  | 1 => 0 | 2 => 31 | 3 => 59 | 4 => 90 | 5 => 120 | 6 => 151
  | 7 => 181 | 8 => 212 | 9 => 243 | 10 => 273 | 11 => 304 | _ => 334

/-- Serial day number of a proleptic-Gregorian date (0 = January 1 of year 1). -/
def dayNumber (y m d : Nat) : Nat :=
  (y - 1) * 365 + ((y - 1) / 4 + (y - 1) / 400 - (y - 1) / 100) +
  daysBeforeMonth m + (if m > 2 && isLeapYear y then 1 else 0) + (d - 1)

/-- Weekday of a date, 0 = Sunday (January 1 of year 1 was a Monday). -/
def weekdayIndex (y m d : Nat) : Nat := (dayNumber y m d + 1) % 7

def weekdayNames : List String :=
  ["Sunday", "Monday", "Tuesday", "Wednesday", "Thursday", "Friday", "Saturday"]

def monthNames : List String :=
  ["January", "February", "March", "April", "May", "June", "July",
   "August", "September", "October", "November", "December"]

def listGetD (l : List String) (i : Nat) : String :=
  match l.get? i with
  | some s => s
  | none => ""

def invalidDateStr : String := "Invalid Date"
def commaSpace : String := ", "
def spaceStr : String := " "

/-- `EmailService.formatDate`: `new Date(dateString).toLocaleDateString(
'en-US', \x7bweekday, year, month, day\x7d)`, rendered in UTC; an unparseable
string renders as `Invalid Date` (the `catch` branch in the source is
unreachable because `toLocaleDateString` does not throw on invalid dates). -/
def formatDate (dateString : String) : String :=
  match parseIsoDate dateString with
  | some (y, m, d) =>
    listGetD weekdayNames (weekdayIndex y m d) ++ commaSpace ++
    listGetD monthNames (m - 1) ++ spaceStr ++ ⟨natDigits d⟩ ++ commaSpace ++
    ⟨natDigits y⟩
  | none => invalidDateStr

/-- Modelled from the JS `Date` library: parsing of the full ISO timestamp
`YYYY-MM-DDTHH:MM:SS.mmmZ` produced by `toISOString` (any other string is
modelled as an invalid date).  Returns year, month, day, hour, minute. -/
def parseIsoDateTime (s : String) : Option (Nat × Nat × Nat × Nat × Nat) :=
  match s.data with
  | [y1, y2, y3, y4, '-', mo1, mo2, '-', d1, d2, 'T',
     h1, h2, ':', mi1, mi2, ':', s1, s2, '.', f1, f2, f3, 'Z'] =>
    if [y1, y2, y3, y4, mo1, mo2, d1, d2, h1, h2, mi1, mi2, s1, s2, f1, f2, f3].all isAsciiDigit then
      let y := ((digitVal y1 * 10 + digitVal y2) * 10 + digitVal y3) * 10 + digitVal y4
      let m := digitVal mo1 * 10 + digitVal mo2
      let d := digitVal d1 * 10 + digitVal d2
      let h := digitVal h1 * 10 + digitVal h2
      let mi := digitVal mi1 * 10 + digitVal mi2
      let sec := digitVal s1 * 10 + digitVal s2
      if 1 ≤ m && m ≤ 12 && 1 ≤ d && d ≤ daysInMonth y m &&
         h ≤ 23 && mi ≤ 59 && sec ≤ 59 then some (y, m, d, h, mi)
      else none
    else none
  | _ => none

def hour12 (h : Nat) : Nat := if h % 12 = 0 then 12 else h % 12

def atSeparator : String := " at "
def colonStr : String := ":"
def amUtc : String := " AM UTC"
def pmUtc : String := " PM UTC"

/-- `EmailService.formatDateTime`: `toLocaleString('en-US', ...)` with
2-digit hour/minute and short time-zone name, rendered in UTC. -/
def formatDateTime (dateTimeString : String) : String :=
  match parseIsoDateTime dateTimeString with
  | some (y, m, d, h, mi) =>
    listGetD weekdayNames (weekdayIndex y m d) ++ commaSpace ++
    listGetD monthNames (m - 1) ++ spaceStr ++ ⟨natDigits d⟩ ++ commaSpace ++
    ⟨natDigits y⟩ ++ atSeparator ++ ⟨twoDigits (hour12 h)⟩ ++ colonStr ++
    ⟨twoDigits mi⟩ ++ (if h < 12 then amUtc else pmUtc)
  | none => invalidDateStr

def liOpen : String := "<li>"
def liClose : String := "</li>"

/-- `plan.activities.map(a => `<li>${escapeHtml(a)}</li>`).join('')`. -/
def activitiesHtml (acts : List String) : String :=
  String.join (acts.map (fun a => liOpen ++ escapeHtml a ++ liClose))

def customOpen : String := "<p><strong>Custom Activity:</strong> "
def customClose : String := "</p>"

/-- The `customActivitySection` ternary: present only when
`plan.customActivity` is truthy (a nonempty string). -/
def customActivitySection (c : Option String) : String :=
  match c with
  | some s => if s ≠ "" then customOpen ++ escapeHtml s ++ customClose else ""
  | none => ""

def unknownFallback : String := "Unknown"

/-- `plan.userAgent || 'Unknown'` (empty string is falsy). -/
def orUnknown : Option String → String
  | some s => if s = "" then unknownFallback else s
  | none => unknownFallback

def emailTmpl0 : String :=
  "\n<!DOCTYPE html>\n<html lang=\"en\">\n<head>\n    <meta charset=\"UTF-8\">\n    <meta name=\"viewport\" content=\"width=device-width, initial-scale=1.0\">\n    <title>New Dating Plan Submission</title>\n    <style>\n        body \x7b\n            font-family: Arial, sans-serif;\n            line-height: 1.6;\n            color: #333;\n            max-width: 600px;\n            margin: 0 auto;\n            padding: 20px;\n            background-color: #f4f4f4;\n        \x7d\n        .container \x7b\n            background-color: white;\n            padding: 30px;\n            border-radius: 10px;\n            box-shadow: 0 0 10px rgba(0,0,0,0.1);\n        \x7d\n        .header \x7b\n            background-color: #e91e63;\n            color: white;\n            padding: 20px;\n            text-align: center;\n            border-radius: 10px 10px 0 0;\n            margin: -30px -30px 20px -30px;\n        \x7d\n        .plan-details \x7b\n            background-color: #f9f9f9;\n            padding: 20px;\n            border-radius: 5px;\n            margin: 20px 0;\n        \x7d\n        .activities \x7b\n            background-color: #fff3e0;\n            padding: 15px;\n            border-radius: 5px;\n            margin: 15px 0;\n        \x7d\n        .activities ul \x7b\n            margin: 10px 0;\n            padding-left: 20px;\n        \x7d\n        .activities li \x7b\n            margin: 5px 0;\n        \x7d\n        .metadata \x7b\n            font-size: 0.9em;\n            color: #666;\n            border-top: 1px solid #eee;\n            padding-top: 15px;\n            margin-top: 20px;\n        \x7d\n        .highlight \x7b\n            background-color: #fff9c4;\n            padding: 2px 4px;\n            border-radius: 3px;\n        \x7d\n    </style>\n</head>\n<body>\n    <div class=\"container\">\n        <div class=\"header\">\n            <h1>ðŸ’• New Dating Plan Submitted!</h1>\n        </div>\n        \n        <p>A new dating plan has been submitted through your app. Here are the details:</p>\n        \n        <div class=\"plan-details\">\n            <h2>Plan Details</h2>\n            <p><strong>Name:</strong> <span class=\"highlight\">"

def emailTmpl1 : String :=
  "</span></p>\n            <p><strong>Date:</strong> <span class=\"highlight\">"

def emailTmpl2 : String :=
  "</span></p>\n            <p><strong>Time:</strong> <span class=\"highlight\">"

def emailTmpl3 : String :=
  "</span></p>\n        </div>\n        \n        <div class=\"activities\">\n            <h3>Selected Activities</h3>\n            <ul>\n                "

def emailTmpl4 : String :=
  "\n            </ul>\n            "

def emailTmpl5 : String :=
  "\n        </div>\n        \n        <div class=\"metadata\">\n            <h3>Submission Information</h3>\n            <p><strong>Submitted At:</strong> "

def emailTmpl6 : String :=
  "</p>\n            <p><strong>User Agent:</strong> "

def emailTmpl7 : String :=
  "</p>\n            <p><strong>IP Address:</strong> "

def emailTmpl8 : String :=
  "</p>\n        </div>\n        \n        <p style=\"margin-top: 30px; font-style: italic; color: #666;\">\n            This email was automatically generated by your Dating Planner app.\n        </p>\n    </div>\n</body>\n</html>"

/-- `EmailService.generateEmailTemplate`: the template literal with its
eight interpolation points. -/
def generateEmailTemplate (plan : PlanSubmission) : String :=
  emailTmpl0 ++ escapeHtml plan.name ++
  emailTmpl1 ++ formatDate plan.date ++
  emailTmpl2 ++ escapeHtml plan.time ++
  emailTmpl3 ++ activitiesHtml plan.activities ++
  emailTmpl4 ++ customActivitySection plan.customActivity ++
  emailTmpl5 ++ formatDateTime plan.submittedAt ++
  emailTmpl6 ++ escapeHtml (orUnknown plan.userAgent) ++
  emailTmpl7 ++ escapeHtml (orUnknown plan.ipAddress) ++
  emailTmpl8

def subjectPre : String := "New Dating Plan Submitted: "

/-- The subject line built by `generateEmailContent`. -/
def generateEmailSubject (plan : PlanSubmission) : String := subjectPre ++ plan.name

/-- Observable trace of `sendPlanNotification`: returned boolean, number of
`beginSend` rounds performed, and the backoff sleeps requested between
attempts (milliseconds, in order). -/
structure NotifyTrace where
  result : Bool
  attemptsMade : Nat
  delays : List Nat
deriving DecidableEq, Repr

/-- The `while (attempt < maxRetries)` loop of `sendPlanNotification`.
`outcome k = true` means the `k`-th send round ends with status
`'Succeeded'`; `false` covers both a thrown error and a non-success status
(the source throws on the latter and both land in the same `catch`).  Fuel
is `maxRetries - attempt`, which bounds the loop. -/
def sendAttempts (outcome : Nat → Bool) (maxRetries : Nat) :
    Nat → Nat → List Nat → NotifyTrace
  | 0, attempt, delays => ⟨false, attempt, delays⟩
  | fuel + 1, attempt, delays =>
    let att := attempt + 1
    if outcome att then ⟨true, att, delays⟩
    else if att = maxRetries then ⟨false, att, delays⟩
    else sendAttempts outcome maxRetries fuel att (delays ++ [2 ^ att * 1000])

/-- `EmailService.sendPlanNotification` with `maxRetries = 3`. -/
def sendPlanNotification (outcome : Nat → Bool) : NotifyTrace :=
  sendAttempts outcome 3 3 0 []

/-- A send call that fails on every attempt. -/
def alwaysFailingSend : Nat → Bool := fun _ => false

/-- A send call that fails on the first attempt and succeeds on the second. -/
def secondTrySend : Nat → Bool := fun k => k = 2

/-! ## The submission gateway (functions/submitPlan.ts) -/

/-- The pieces of the inbound request the handler reads: method, the
`user-agent` header, the three client-IP headers, and the result of
`JSON.parse` on the body text (`none` = the parse threw). -/
structure HttpReq where
  method : String
  userAgent : Option String
  xForwardedFor : Option String
  xRealIp : Option String
  xClientIp : Option String
  body : Option Json

/-- The two module-level rate-limiter maps. -/
structure GatewayState where
  globalSt : RLState
  perIpSt : RLState
deriving DecidableEq

/-- Outcome of the email leg: `sendPlanNotification` resolved `true`,
resolved `false`, or threw (including the `EmailService` constructor
throwing on missing configuration). -/
inductive NotifierOutcome where
  | sent : NotifierOutcome
  | notSent : NotifierOutcome
  | threw : NotifierOutcome
deriving DecidableEq, Repr

/-- `emailSent` stays `false` unless the notifier resolved `true`; a thrown
error is swallowed by the inner `catch`. -/
def emailSentOf : NotifierOutcome → Bool
  | .sent => true
  | _ => false

/-- The claim-relevant parts of the HTTP response: status code and the
`success`/`emailSent`/`submissionId`/`details`/`submittedAt` body fields
(each `none` when the JSON body of that path does not carry the field). -/
structure HttpResp where
  status : Nat
  success : Option Bool
  emailSent : Option Bool
  submissionId : Option String
  details : Option (List ValidationError)
  submittedAt : Option String
deriving DecidableEq, Repr

def unknownIp : String := "unknown"

/-- JS `a || b` on header values: `null` and `''` fall through. -/
def headerOr (v : Option String) (d : String) : String :=
  match v with
  | some s => if s = "" then d else s
  | none => d

/-- `x-forwarded-for || x-real-ip || x-client-ip || 'unknown'`. -/
def clientIPOf (req : HttpReq) : String :=
  headerOr req.xForwardedFor (headerOr req.xRealIp (headerOr req.xClientIp unknownIp))

def globalKey : String := "global"
def postMethod : String := "POST"
def optionsMethod : String := "OPTIONS"

/-- JS property assignment on an object: overwrite in place, else append. -/
def setField : List (String × Json) → String → Json → List (String × Json)
  | [], k, v => [(k, v)]
  | (k', v') :: rest, k, v =>
    if k' = k then (k, v) :: rest else (k', v') :: setField rest k v

/-- `request.headers.get('user-agent')` is `null` when absent. -/
def jsonOfHeader : Option String → Json
  | some s => .str s
  | none => .null

/-- `requestBody.userAgent = ...; requestBody.ipAddress = clientIP;` before
validation, for the parsed bodies on which the assignment does not throw
(objects and arrays).  On an array the added string-keyed properties are
invisible to `JSON.stringify` and to every field the validator reads, so
that case is the identity.  A primitive or `null` body never reaches this
function: the compiled module is strict-mode JS, so the assignment throws
there, and the gateway model below takes the outer-catch 500 path first. -/
def injectMeta (j : Json) (ua : Option String) (ip : String) : Json :=
  match j with
  | .obj fs =>
    .obj (setField (setField fs userAgentKey (jsonOfHeader ua)) ipAddressKey (.str ip))
  | other => other

/-- `submitPlan`: the per-request pipeline, returning the response and the
updated rate-limiter maps.  Impure inputs are parameters: `parseDate`,
`lowBound`, `highBound`, `nowIso` feed the validator; `subId` is the
generated submission id; `notifier` is the email leg's outcome; `now` is
`Date.now()` at the rate-limit check.  When the parsed body is a primitive
or `null`, the strict-mode metadata assignment throws a `TypeError` inside
the outer `try`, which answers 500 with a generic body (no `success`
field); the logger itself is modelled as non-throwing, so no other path
reaches the outer catch. -/
def submitPlan (parseDate : String → Option Int) (lowBound highBound : Int)
    (nowIso subId : String) (notifier : NotifierOutcome) (req : HttpReq)
    (st : GatewayState) (now : Nat) : HttpResp × GatewayState :=
  if req.method = optionsMethod then (⟨200, none, none, none, none, none⟩, st)
  else if req.method ≠ postMethod then (⟨405, some false, none, none, none, none⟩, st)
  else
    let clientIP := clientIPOf req
    let gStep := isAllowed globalRateLimitConfig st.globalSt globalKey now
    let ipStep := isAllowed submitPlanRateLimitConfig st.perIpSt clientIP now
    let st2 : GatewayState := ⟨gStep.2, ipStep.2⟩
    if !gStep.1.allowed || !ipStep.1.allowed then
      (⟨429, some false, none, none, none, none⟩, st2)
    else
      match req.body with
      | none => (⟨400, some false, none, none, none, none⟩, st2)
      | some bodyJson =>
        if !bodyJson.isTruthyObject then
          (⟨500, none, none, none, none, none⟩, st2)
        else
          let injected := injectMeta bodyJson req.userAgent clientIP
          let validation := validatePlanSubmission parseDate lowBound highBound nowIso injected
          if !validation.isValid then
            (⟨400, some false, none, none, some validation.errors, none⟩, st2)
          else
            (⟨200, some true, some (emailSentOf notifier), some subId, none,
              validation.sanitized.map PlanSubmission.submittedAt⟩, st2)

/-! ## Sanitizer normal forms (for the idempotence analysis) -/

/-- No two adjacent whitespace characters. -/
def noDoubleWs : List Char → Bool
  | c1 :: c2 :: rest => !(isJsWhitespace c1 && isJsWhitespace c2) && noDoubleWs (c2 :: rest)
  | _ => true

def headNotWs : List Char → Bool
  | [] => true
  | c :: _ => !isJsWhitespace c

/-- Sanitizer normal form: every character is in the sanitizer's allow-list,
the only whitespace character is the plain space, spaces are single and
interior, and the length is at most 500. -/
def isNormalizedL (l : List Char) : Bool :=
  l.all (fun c => isSanitizeAllowed c && (!isJsWhitespace c || c = ' ')) &&
  headNotWs l && headNotWs l.reverse && noDoubleWs l && decide (l.length ≤ 500)

/-! ## Concrete inputs used by counterexamples and witnesses -/

/-- A `new Date` oracle accepting every string at epoch time 0 (the
validator theorems hold for every oracle; this one serves concrete runs). -/
def trivialParseDate : String → Option Int := fun _ => some 0

def isoStamp : String := "2025-02-14T19:00:00.000Z"

/-- A JSON body that is a bare string containing a forbidden pattern. -/
def stringBodyPayload : Json := Json.str "javascript:alert(1)"

/-- A payload whose fields are all individually valid, with a forbidden
pattern hiding in an activity (the activity charset admits `:`). -/
def maliciousPayload : Json :=
  Json.obj
    [(nameKey, Json.str "John Doe"),
     (dateKey, Json.str "2025-02-14"),
     (timeKey, Json.str "19:00"),
     (activitiesKey, Json.arr [Json.str "Dinner", Json.str "javascript:run"])]

def bigName : String := String.mk (List.replicate 10001 'a')

/-- A truthy-object payload whose serialized form exceeds 10 000 characters. -/
def bigPayload : Json := Json.obj [(nameKey, Json.str bigName)]

/-- A fully valid payload (time `"19:00"`). -/
def validPayload : Json :=
  Json.obj
    [(nameKey, Json.str "John Doe"),
     (dateKey, Json.str "2025-02-14"),
     (timeKey, Json.str "19:00"),
     (activitiesKey, Json.arr [Json.str "Dinner"])]

/-- A fully valid payload except that its time uses a single-digit hour. -/
def payload930 : Json :=
  Json.obj
    [(nameKey, Json.str "John Doe"),
     (dateKey, Json.str "2025-02-14"),
     (timeKey, Json.str "9:30"),
     (activitiesKey, Json.arr [Json.str "Dinner"])]

/-- The spec sentence `time: string matching HH:MM (00-23 : 00-59)` read
literally: exactly two digits 00-23, a colon, exactly two digits 00-59
(stated from the spec's words, for comparison with the code's regex). -/
def specTwoDigitHHMM (s : String) : Bool :=
  match s.data with
  | [h1, h2, ':', m1, m2] =>
    isAsciiDigit h1 && isAsciiDigit h2 && isAsciiDigit m1 && isAsciiDigit m2 &&
    decide (digitVal h1 * 10 + digitVal h2 ≤ 23) &&
    decide (digitVal m1 * 10 + digitVal m2 ≤ 59)
  | _ => false

def subIdSample : String := "sub_1739000000000_k3v9q1xzw"

/-- A well-formed POST request carrying the valid payload. -/
def sampleReq : HttpReq :=
  { method := "POST", userAgent := some "Mozilla", xForwardedFor := some "203.0.113.7",
    xRealIp := none, xClientIp := none, body := some validPayload }

/-- The same POST request with a forbidden pattern in its `User-Agent`
header (the body itself is fully valid). -/
def uaAttackReq : HttpReq :=
  { method := "POST", userAgent := some "javascript:alert(1)",
    xForwardedFor := some "203.0.113.7", xRealIp := none, xClientIp := none,
    body := some validPayload }

/-- Gateway state in which the per-IP window for `203.0.113.7` is active
and full (count 10 of 10) while the global limiter is untouched. -/
def perIpCappedState : GatewayState :=
  ⟨[], [("203.0.113.7", ⟨10, 1000000000⟩)]⟩

/-- Gateway state in which the global window is active and full (count 100
of 100) while the per-IP entry has capacity (count 3 of 10). -/
def globalCappedState : GatewayState :=
  ⟨[(globalKey, ⟨100, 1000000000⟩)], [("203.0.113.7", ⟨3, 1000000000⟩)]⟩

/-! ## Safety of interpolated chunks (for the HTML-escaping claim) -/

def ampTail : List Char := "amp;".data
def ltTail : List Char := "lt;".data
def gtTail : List Char := "gt;".data
def quotTail : List Char := "quot;".data
def aposTail : List Char := "#039;".data

/-- After a `&`, the following characters must spell one of the five
entities `escapeHtml` emits. -/
def isEntityTail (l : List Char) : Bool :=
  startsWithL ampTail l || startsWithL ltTail l || startsWithL gtTail l ||
  startsWithL quotTail l || startsWithL aposTail l

/-- Chunk safety: no raw `<`, `>`, `"`, `'` anywhere, and every `&` begins
one of the five entities — i.e. the specials occur only in entity-escaped
form. -/
def chunkSafeL : List Char → Bool
  | [] => true
  | c :: rest =>
    if c = '<' || c = '>' || c = '"' || c = '\'' then false
    else if c = '&' then isEntityTail rest && chunkSafeL rest
    else chunkSafeL rest

def chunkSafe (s : String) : Bool := chunkSafeL s.data

/-- A character that is neither a special nor `&`. -/
def plainChar (c : Char) : Bool :=
  !(c = '<' || c = '>' || c = '"' || c = '\'' || c = '&')

/-- A concrete submission whose fields are full of special characters. -/
def samplePlan : PlanSubmission :=
  { name := "Bob & <Alice>"
    date := "2025-02-14"
    time := "19:00 \"sharp\""
    activities := ["Dinner & drinks"]
    customActivity := some "Movie 'Alien'"
    submittedAt := isoStamp
    userAgent := some "UA/1.0 <evil>"
    ipAddress := some "203.0.113.7" }

/-! # Theorems -/

/-! ### Claim C3: notifier retry/backoff behaviour -/

/-- Claim C3 (counterexample): with a send call that fails on every attempt,
`sendPlanNotification` does return `false` after exactly 3 attempts, but it
requests only two backoff sleeps, of 2s and 4s — there is no third (8s)
delay "between the attempts" as the claim states, because the third failure
returns immediately. -/
theorem C3_counterexample :
    sendPlanNotification alwaysFailingSend = ⟨false, 3, [2000, 4000]⟩ ∧
    (sendPlanNotification alwaysFailingSend).delays.length ≠ 3 := by
  constructor
  · rfl
  · decide

/-- Claim C3 (amended): if the underlying send call fails on every attempt,
`notify` returns `false` after exactly 3 attempts with backoff delays of 2s
and 4s between consecutive attempts (the 8s backoff of the `2^attempt`
formula is never slept, since the third failure returns immediately); if
the send call succeeds on the 2nd attempt, it returns `true` after exactly
2 attempts, with the single 2s delay between them. -/
theorem C3_notifier_retry_behavior (outcome : Nat → Bool)
    (h1 : outcome 1 = false) (h2 : outcome 2 = true) :
    sendPlanNotification alwaysFailingSend = ⟨false, 3, [2000, 4000]⟩ ∧
    sendPlanNotification outcome = ⟨true, 2, [2000]⟩ := by
  refine ⟨rfl, ?_⟩
  simp [sendPlanNotification, sendAttempts, h1, h2]

/-- Witness for C3: the concrete send stub succeeding on the second try. -/
theorem C3_notifier_retry_behavior_witness :
    secondTrySend 1 = false ∧ secondTrySend 2 = true ∧
    (sendPlanNotification alwaysFailingSend = ⟨false, 3, [2000, 4000]⟩ ∧
     sendPlanNotification secondTrySend = ⟨true, 2, [2000]⟩) :=
  ⟨by decide, by decide, C3_notifier_retry_behavior secondTrySend (by decide) (by decide)⟩

/-! ### Claim C6: sanitizer idempotence -/

/-- Claim C6 (counterexample): sanitization is not idempotent.  On
`"< a"`, the trim runs before the `<`/`>` removal, so the removal exposes a
leading space that only a second application trims:
`sanitize "< a" = " a"` but `sanitize " a" = "a"`. -/
theorem C6_counterexample :
    sanitizeString (sanitizeString "< a") ≠ sanitizeString "< a" := by
  decide

theorem dropWhile_eq_self_of_headNotWs (l : List Char) (h : headNotWs l = true) :
    l.dropWhile isJsWhitespace = l := by
  cases l with
  | nil => rfl
  | cons c rest =>
    simp only [headNotWs, Bool.not_eq_true'] at h
    simp [List.dropWhile_cons, h]

theorem trimL_eq_self (l : List Char) (h1 : headNotWs l = true)
    (h2 : headNotWs l.reverse = true) : trimL l = l := by
  unfold trimL
  rw [dropWhile_eq_self_of_headNotWs l h1, dropWhile_eq_self_of_headNotWs l.reverse h2,
    List.reverse_reverse]

theorem removeAngles_eq_self (l : List Char)
    (h : ∀ c ∈ l, isSanitizeAllowed c = true) : removeAngles l = l := by
  unfold removeAngles
  apply List.filter_eq_self.mpr
  intro c hc
  have hx := h c hc
  by_cases h1 : c = '<'
  · subst h1; exact absurd hx (by decide)
  by_cases h2 : c = '>'
  · subst h2; exact absurd hx (by decide)
  simp [h1, h2]

theorem crlfToSpace_eq_self (l : List Char)
    (h : ∀ c ∈ l, isJsWhitespace c = true → c = ' ') : crlfToSpace l = l := by
  induction l with
  | nil => rfl
  | cons c rest ih =>
    have h1 : ¬ c = '\r' := fun h' => by
      subst h'; exact absurd (h _ (List.mem_cons_self ..) (by decide)) (by decide)
    have h2 : ¬ c = '\n' := fun h' => by
      subst h'; exact absurd (h _ (List.mem_cons_self ..) (by decide)) (by decide)
    have h3 : ¬ c = '\t' := fun h' => by
      subst h'; exact absurd (h _ (List.mem_cons_self ..) (by decide)) (by decide)
    simp only [crlfToSpace, List.map_cons, h1, h2, h3, decide_eq_false, Bool.or_self,
      Bool.false_eq_true, if_false, List.cons.injEq]
    exact ⟨rfl, ih (fun x hx hw => h x (List.mem_cons_of_mem _ hx) hw)⟩

theorem noDoubleWs_tail (c : Char) (rest : List Char)
    (h : noDoubleWs (c :: rest) = true) : noDoubleWs rest = true := by
  cases rest with
  | nil => rfl
  | cons c2 r2 =>
    simp only [noDoubleWs, Bool.and_eq_true] at h
    exact h.2

theorem headNotWs_of_noDoubleWs (c : Char) (rest : List Char)
    (hws : isJsWhitespace c = true) (h : noDoubleWs (c :: rest) = true) :
    headNotWs rest = true := by
  cases rest with
  | nil => rfl
  | cons c2 r2 =>
    simp only [noDoubleWs, Bool.and_eq_true, Bool.not_eq_true',
      Bool.and_eq_false_iff] at h
    rcases h.1 with h' | h'
    · exact absurd hws (by simp [h'])
    · simp [headNotWs, h']

theorem collapseWsAux_eq_self (l : List Char)
    (honly : ∀ c ∈ l, isJsWhitespace c = true → c = ' ')
    (hdbl : noDoubleWs l = true) :
    ∀ b : Bool, (b = true → headNotWs l = true) → collapseWsAux b l = l := by
  induction l with
  | nil => intro b _; rfl
  | cons c rest ih =>
    intro b hb
    have ihr := ih (fun x hx hw => honly x (List.mem_cons_of_mem _ hx) hw)
      (noDoubleWs_tail c rest hdbl)
    by_cases hws : isJsWhitespace c = true
    · have hsp : c = ' ' := honly c (List.mem_cons_self ..) hws
      have hbf : b = false := by
        by_contra hbt
        simp only [Bool.not_eq_false] at hbt
        have := hb hbt
        simp [headNotWs, hws] at this
      subst hbf
      subst hsp
      have hrest := ihr true (fun _ => headNotWs_of_noDoubleWs _ rest hws hdbl)
      simp only [collapseWsAux, hws, if_true, Bool.false_eq_true, if_false]
      exact congrArg _ hrest
    · have hrest := ihr false (fun h => by simp at h)
      simp only [collapseWsAux, hws, Bool.false_eq_true, if_false]
      exact congrArg _ hrest

theorem sanitizeL_fixed (l : List Char) (h : isNormalizedL l = true) :
    sanitizeL l = l := by
  simp only [isNormalizedL, Bool.and_eq_true, List.all_eq_true, decide_eq_true_eq] at h
  obtain ⟨⟨⟨⟨hall, hhead⟩, hlast⟩, hdbl⟩, hlen⟩ := h
  have hallowed : ∀ c ∈ l, isSanitizeAllowed c = true := by
    intro c hc
    have := hall c hc
    simp only [Bool.and_eq_true] at this
    exact this.1
  have honly : ∀ c ∈ l, isJsWhitespace c = true → c = ' ' := by
    intro c hc hw
    have := hall c hc
    simp only [Bool.and_eq_true, Bool.or_eq_true, Bool.not_eq_true'] at this
    rcases this.2 with h' | h'
    · exact absurd hw (by simp [h'])
    · exact of_decide_eq_true h'
  unfold sanitizeL
  rw [trimL_eq_self l hhead hlast, removeAngles_eq_self l hallowed,
    crlfToSpace_eq_self l honly]
  unfold collapseWs
  rw [collapseWsAux_eq_self l honly hdbl false (fun h => by simp at h)]
  rw [List.filter_eq_self.mpr hallowed]
  exact List.take_of_length_le hlen

/-- Claim C6 (amended): a second application of the sanitizer is the
identity whenever the first application's output is in sanitizer normal
form; in general idempotence fails, because removing `<`/`>` or a
disallowed character can expose leading/trailing whitespace or create a
double space after the trim/collapse stages already ran, and the 500-char
truncation can expose a trailing space. -/
theorem C6_sanitize_idempotent_on_normalized (s : String)
    (h : isNormalizedL (sanitizeL s.data) = true) :
    sanitizeString (sanitizeString s) = sanitizeString s := by
  show String.mk (sanitizeL (sanitizeL s.data)) = String.mk (sanitizeL s.data)
  rw [sanitizeL_fixed _ h]

/-- Witness for C6: a concrete input whose sanitized form is normalized. -/
theorem C6_sanitize_idempotent_witness :
    isNormalizedL (sanitizeL ("Hello, world!  ").data) = true ∧
    sanitizeString (sanitizeString "Hello, world!  ") = sanitizeString "Hello, world!  " :=
  ⟨by decide, C6_sanitize_idempotent_on_normalized _ (by decide)⟩

/-! ### Claims C4 and C5: the validator's whole-payload gates -/

/-- Claim C4 (counterexample): a payload need not be an object — the JSON
string `"javascript:alert(1)"` serializes to a string containing the
forbidden pattern `javascript:`, yet `validate` rejects it with the
"body required" error of the existence gate, not with the "malicious
content" error the claim demands. -/
theorem C4_counterexample :
    isSuspicious (Json.stringify stringBodyPayload) = true ∧
    validatePlanSubmission trivialParseDate 0 0 isoStamp stringBodyPayload =
      ⟨false, [errBodyRequired], none⟩ ∧
    errBodyRequired ≠ errMalicious :=
  ⟨rfl, rfl, by decide⟩

/-- Claim C4 (amended): for every payload that passes the body-existence
gate (a truthy object, i.e. a JSON object or array) and whose serialized
form matches any of the seven forbidden patterns case-insensitively,
`validate` rejects with exactly the single "malicious content" error, even
if every individual field is otherwise valid. -/
theorem C4_malicious_rejection (parseDate : String → Option Int)
    (lowBound highBound : Int) (nowIso : String) (data : Json)
    (hobj : data.isTruthyObject = true)
    (hsus : isSuspicious data.stringify = true) :
    validatePlanSubmission parseDate lowBound highBound nowIso data =
      ⟨false, [errMalicious], none⟩ := by
  unfold validatePlanSubmission
  simp [hobj, hsus]

/-- Witness for C4: all fields of this payload are individually valid (the
activity charset admits `:`), yet the serialized form contains
`javascript:`. -/
theorem C4_malicious_rejection_witness :
    maliciousPayload.isTruthyObject = true ∧
    isSuspicious maliciousPayload.stringify = true ∧
    validatePlanSubmission trivialParseDate 0 0 isoStamp maliciousPayload =
      ⟨false, [errMalicious], none⟩ :=
  ⟨rfl, rfl, C4_malicious_rejection trivialParseDate 0 0 isoStamp maliciousPayload rfl rfl⟩

/-- Claim C5: a payload whose serialized form exceeds 10 000 characters is
rejected with exactly one error, and that error is a whole-payload
(`body`-field) error — no field-level validation contributes. -/
theorem C5_size_gate (parseDate : String → Option Int) (lowBound highBound : Int)
    (nowIso : String) (data : Json) (hbig : data.stringify.length > 10000) :
    (validatePlanSubmission parseDate lowBound highBound nowIso data).isValid = false ∧
    (validatePlanSubmission parseDate lowBound highBound nowIso data).errors.length = 1 ∧
    ∀ e ∈ (validatePlanSubmission parseDate lowBound highBound nowIso data).errors,
      e.field = "body" := by
  unfold validatePlanSubmission
  by_cases hobj : data.isTruthyObject = true
  · by_cases hsus : isSuspicious data.stringify = true
    · simp [hobj, hsus, errMalicious]
    · simp only [Bool.not_eq_true] at hsus
      simp [hobj, hsus, hbig, errTooLarge]
  · simp only [Bool.not_eq_true] at hobj
    simp [hobj, errBodyRequired]

theorem flatten_map_singleton (l : List Char) :
    (l.map (fun c => [c])).flatten = l := by
  induction l with
  | nil => rfl
  | cons c rest ih => simp [ih]

theorem jsonQuote_length_plain (s : String)
    (h : ∀ c ∈ s.data, jsonEscapeChar c = [c]) :
    (jsonQuote s).length = s.length + 2 := by
  unfold jsonQuote
  rw [List.map_congr_left h, flatten_map_singleton]
  show ('"' :: (s.data ++ ['"'])).length = s.data.length + 2
  simp

theorem bigPayload_stringify_large : bigPayload.stringify.length > 10000 := by
  have hlen : bigName.length = 10001 := by
    show (List.replicate 10001 'a').length = 10001
    exact List.length_replicate ..
  have hq : (jsonQuote bigName).length = 10003 := by
    rw [jsonQuote_length_plain bigName ?h, hlen]
    case h =>
      intro c hc
      rw [List.eq_of_mem_replicate hc]
      decide
  have hshape : bigPayload.stringify =
      "\x7b" ++ (jsonQuote nameKey ++ ":" ++ jsonQuote bigName) ++ "\x7d" := by
    simp only [bigPayload, Json.stringify, stringifyFields]
  rw [hshape]
  simp only [String.length_append, hq]
  omega

/-- Witness for C5: the oversized payload is rejected with exactly one
`body`-field error. -/
theorem C5_size_gate_witness :
    bigPayload.stringify.length > 10000 ∧
    ((validatePlanSubmission trivialParseDate 0 0 isoStamp bigPayload).isValid = false ∧
     (validatePlanSubmission trivialParseDate 0 0 isoStamp bigPayload).errors.length = 1 ∧
     ∀ e ∈ (validatePlanSubmission trivialParseDate 0 0 isoStamp bigPayload).errors,
       e.field = "body") :=
  ⟨bigPayload_stringify_large,
   C5_size_gate trivialParseDate 0 0 isoStamp bigPayload bigPayload_stringify_large⟩

/-! ### Claim C8: acceptance of the time field -/

theorem nameErrors_field (v : Option Json) : ∀ e ∈ nameErrors v, e.field = "name" := by
  intro e he
  unfold nameErrors at he
  repeat' split at he
  all_goals simp_all [errNameRequired, errNameEmpty, errNameTooLong, errNameCharset]

theorem dateErrors_field (parseDate : String → Option Int) (lowBound highBound : Int)
    (v : Option Json) : ∀ e ∈ dateErrors parseDate lowBound highBound v, e.field = "date" := by
  intro e he
  unfold dateErrors at he
  repeat' split at he
  all_goals simp_all [errDateRequired, errDateInvalid, errDateRange]

theorem timeErrors_field (v : Option Json) : ∀ e ∈ timeErrors v, e.field = "time" := by
  intro e he
  unfold timeErrors at he
  repeat' split at he
  all_goals simp_all [errTimeRequired, errTimeFormat]

theorem activitiesErrors_field (v : Option Json) :
    ∀ e ∈ activitiesErrors v, e.field = "activities" := by
  intro e he
  unfold activitiesErrors at he
  repeat' split at he
  all_goals simp_all [errActivitiesArray, errActivitiesEmpty, errActivitiesTooMany,
    errActivitiesInvalid]

theorem customActivityErrors_field (v : Option Json) :
    ∀ e ∈ customActivityErrors v, e.field = "customActivity" := by
  intro e he
  unfold customActivityErrors at he
  repeat' split at he
  all_goals simp_all [errCustomString, errCustomTooLong, errCustomCharset]

theorem timeErrors_nil_iff (v : Option Json) :
    timeErrors v = [] ↔
      ∃ s, v = some (Json.str s) ∧ s ≠ "" ∧ timeMatches s.data = true := by
  unfold timeErrors
  rcases v with _ | j
  · simp [asTruthyStr]
  rcases j with _ | b | n | s | es | fs
  · simp [asTruthyStr]
  · simp [asTruthyStr]
  · simp [asTruthyStr]
  · by_cases hs : s = ""
    · simp [asTruthyStr, hs]
    · by_cases ht : timeMatches s.data = true
      · simp [asTruthyStr, hs, ht]
      · simp only [Bool.not_eq_true] at ht
        simp [asTruthyStr, hs, ht]
  · simp [asTruthyStr]
  · simp [asTruthyStr]

/-- Under the three whole-payload gates, the validator's error list is
exactly the concatenation of the five field checks. -/
theorem validate_errors_eq (parseDate : String → Option Int) (lowBound highBound : Int)
    (nowIso : String) (data : Json) (hobj : data.isTruthyObject = true)
    (hsus : isSuspicious data.stringify = false)
    (hsize : ¬ data.stringify.length > 10000) :
    (validatePlanSubmission parseDate lowBound highBound nowIso data).errors =
      nameErrors (data.getField nameKey) ++
      dateErrors parseDate lowBound highBound (data.getField dateKey) ++
      timeErrors (data.getField timeKey) ++
      activitiesErrors (data.getField activitiesKey) ++
      customActivityErrors (data.getField customActivityKey) := by
  unfold validatePlanSubmission
  simp only [hobj, hsus, Bool.not_true, Bool.false_eq_true, if_false, hsize,
    Bool.not_false, if_true]
  split
  · rfl
  · next hne =>
    have hempty : (nameErrors (data.getField nameKey) ++
        dateErrors parseDate lowBound highBound (data.getField dateKey) ++
        timeErrors (data.getField timeKey) ++
        activitiesErrors (data.getField activitiesKey) ++
        customActivityErrors (data.getField customActivityKey)) = [] := by
      rw [← List.isEmpty_iff]
      cases h : (nameErrors (data.getField nameKey) ++
          dateErrors parseDate lowBound highBound (data.getField dateKey) ++
          timeErrors (data.getField timeKey) ++
          activitiesErrors (data.getField activitiesKey) ++
          customActivityErrors (data.getField customActivityKey)).isEmpty
      · rw [h] at hne; simp at hne
      · rfl
    simp only [List.append_eq_nil] at hempty
    obtain ⟨⟨⟨⟨hA, hB⟩, hC⟩, hD⟩, hE⟩ := hempty
    simp [hA, hB, hC, hD, hE]

/-- Claim C8 (counterexample): the code's regex accepts `"9:30"`, whose
hour is a single digit, so the accepted set is strictly larger than the
two-digit `HH:MM (00-23:00-59)` format the claim states; a fully valid
payload with time `"9:30"` passes validation without any time error. -/
theorem C8_counterexample :
    timeMatches ("9:30").data = true ∧
    specTwoDigitHHMM "9:30" = false ∧
    (validatePlanSubmission trivialParseDate 0 0 isoStamp payload930).isValid = true :=
  ⟨rfl, rfl, rfl⟩

/-- Claim C8 (amended): for a payload that passes the whole-payload gates,
validation produces no `time`-field error if and only if the `time` field
is a string matched by `^([0-1]?[0-9]|2[0-3]):[0-5][0-9]$` — hours `0`-`23`
with the leading zero optional (single-digit hours like `9:30` are
accepted), minutes exactly two digits `00`-`59`; any other value produces a
`time`-field error. -/
theorem C8_time_acceptance (parseDate : String → Option Int) (lowBound highBound : Int)
    (nowIso : String) (data : Json) (hobj : data.isTruthyObject = true)
    (hsus : isSuspicious data.stringify = false)
    (hsize : ¬ data.stringify.length > 10000) :
    (∀ e ∈ (validatePlanSubmission parseDate lowBound highBound nowIso data).errors,
        e.field ≠ "time") ↔
      ∃ s, data.getField timeKey = some (Json.str s) ∧ s ≠ "" ∧
        timeMatches s.data = true := by
  rw [validate_errors_eq parseDate lowBound highBound nowIso data hobj hsus hsize,
    ← timeErrors_nil_iff]
  constructor
  · intro h
    rcases hT : timeErrors (data.getField timeKey) with _ | ⟨t, ts⟩
    · rfl
    · exfalso
      have hmem : t ∈ nameErrors (data.getField nameKey) ++
          dateErrors parseDate lowBound highBound (data.getField dateKey) ++
          timeErrors (data.getField timeKey) ++
          activitiesErrors (data.getField activitiesKey) ++
          customActivityErrors (data.getField customActivityKey) := by
        simp [hT]
      have := h t hmem
      have ht := timeErrors_field (data.getField timeKey) t (by simp [hT])
      exact this ht
  · intro hT e he
    rw [hT] at he
    simp only [List.append_nil, List.mem_append] at he
    rcases he with ((he | he) | he) | he
    · rw [nameErrors_field _ e he]; decide
    · rw [dateErrors_field _ _ _ _ e he]; decide
    · rw [activitiesErrors_field _ e he]; decide
    · rw [customActivityErrors_field _ e he]; decide

/-- Witness for C8: instantiating the acceptance characterization at a
concrete valid payload (time `"19:00"`). -/
theorem C8_time_acceptance_witness :
    (∀ e ∈ (validatePlanSubmission trivialParseDate 0 0 isoStamp validPayload).errors,
        e.field ≠ "time") ↔
      ∃ s, validPayload.getField timeKey = some (Json.str s) ∧ s ≠ "" ∧
        timeMatches s.data = true :=
  C8_time_acceptance trivialParseDate 0 0 isoStamp validPayload rfl rfl (by decide)

/-! ### Claim C2: rate limiter branches and window scenario -/

theorem rlGet_rlSet (st : RLState) (k : String) (e : RateLimitEntry) :
    rlGet (rlSet st k e) k = some e := by
  induction st with
  | nil => simp [rlGet, rlSet]
  | cons p rest ih =>
    obtain ⟨k', e'⟩ := p
    by_cases hk : k' = k
    · simp [rlGet, rlSet, hk]
    · simp [rlGet, rlSet, hk, ih]

theorem isAllowed_fresh (cfg : RateLimitConfig) (st : RLState) (k : String) (now : Nat)
    (h : rlGet st k = none ∨ ∃ e, rlGet st k = some e ∧ now ≥ e.resetTime) :
    isAllowed cfg st k now =
      (⟨true, now + cfg.windowMs, (cfg.maxRequests : Int) - 1⟩,
       rlSet st k ⟨1, now + cfg.windowMs⟩) := by
  rcases h with h | ⟨e, hget, hexp⟩
  · simp [isAllowed, h]
  · simp [isAllowed, hget, hexp]

theorem isAllowed_deny (cfg : RateLimitConfig) (st : RLState) (k : String) (now : Nat)
    (e : RateLimitEntry) (hget : rlGet st k = some e) (hwin : now < e.resetTime)
    (hfull : e.count ≥ cfg.maxRequests) :
    isAllowed cfg st k now = (⟨false, e.resetTime, 0⟩, st) := by
  simp [isAllowed, hget, Nat.not_le.mpr hwin, hfull]

theorem isAllowed_increment (cfg : RateLimitConfig) (st : RLState) (k : String) (now : Nat)
    (e : RateLimitEntry) (hget : rlGet st k = some e) (hwin : now < e.resetTime)
    (hroom : e.count < cfg.maxRequests) :
    isAllowed cfg st k now =
      (⟨true, e.resetTime, (cfg.maxRequests : Int) - (e.count + 1)⟩,
       rlSet st k ⟨e.count + 1, e.resetTime⟩) := by
  simp [isAllowed, hget, Nat.not_le.mpr hwin, Nat.not_le.mpr hroom]

/-- Effect of a sequence of in-window calls on one key: the count climbs by
one per call, saturating at `maxRequests`; `resetTime` never changes. -/
theorem callSeq_in_window (cfg : RateLimitConfig) (k : String) (ts : List Nat) :
    ∀ (st : RLState) (c r : Nat), rlGet st k = some ⟨c, r⟩ →
      c ≤ cfg.maxRequests → (∀ t ∈ ts, t < r) →
      rlGet (callSeq cfg st k ts) k = some ⟨min (c + ts.length) cfg.maxRequests, r⟩ := by
  induction ts with
  | nil =>
    intro st c r hget hle _
    simpa [callSeq, Nat.min_eq_left hle] using hget
  | cons t ts ih =>
    intro st c r hget hle hwin
    have htw : t < r := hwin t (List.mem_cons_self ..)
    by_cases hfull : c ≥ cfg.maxRequests
    · have hc : c = cfg.maxRequests := Nat.le_antisymm hle hfull
      rw [callSeq, isAllowed_deny cfg st k t ⟨c, r⟩ hget htw hfull]
      have := ih st c r hget hle (fun x hx => hwin x (List.mem_cons_of_mem _ hx))
      rw [this, hc]
      simp only [List.length_cons]
      congr 2
      omega
    · push_neg at hfull
      rw [callSeq, isAllowed_increment cfg st k t ⟨c, r⟩ hget htw hfull]
      have := ih (rlSet st k ⟨c + 1, r⟩) (c + 1) r (rlGet_rlSet ..) hfull
        (fun x hx => hwin x (List.mem_cons_of_mem _ hx))
      rw [this]
      simp only [List.length_cons]
      congr 2
      omega

/-- Claim C2: on first touch of a key or at/after `resetTime`, `isAllowed`
starts a fresh window with count 1, allows, reports `remaining =
maxRequests - 1` and `resetTime = now + windowMs`; within an active window
it denies with `remaining = 0` and an unchanged entry when `count ≥
maxRequests`, and otherwise increments the count and allows with
`remaining = maxRequests - count`.  Consequently, for `maxRequests = N ≥ 1`
and a fixed fresh key, after `N` calls inside the window the next call
inside the window is denied, and the first call at or after `resetTime` is
allowed with a fresh window. -/
theorem C2_rate_limiter (cfg : RateLimitConfig) (st : RLState) (k : String) (now : Nat) :
    ((rlGet st k = none ∨ ∃ e, rlGet st k = some e ∧ now ≥ e.resetTime) →
      isAllowed cfg st k now =
        (⟨true, now + cfg.windowMs, (cfg.maxRequests : Int) - 1⟩,
         rlSet st k ⟨1, now + cfg.windowMs⟩)) ∧
    (∀ e : RateLimitEntry, rlGet st k = some e → now < e.resetTime →
      e.count ≥ cfg.maxRequests →
      isAllowed cfg st k now = (⟨false, e.resetTime, 0⟩, st)) ∧
    (∀ e : RateLimitEntry, rlGet st k = some e → now < e.resetTime →
      e.count < cfg.maxRequests →
      isAllowed cfg st k now =
        (⟨true, e.resetTime, (cfg.maxRequests : Int) - (e.count + 1)⟩,
         rlSet st k ⟨e.count + 1, e.resetTime⟩)) ∧
    (∀ (t0 : Nat) (ts : List Nat) (u v : Nat), rlGet st k = none →
      1 ≤ cfg.maxRequests → ts.length = cfg.maxRequests - 1 →
      (∀ t ∈ ts, t < t0 + cfg.windowMs) →
      u < t0 + cfg.windowMs → v ≥ t0 + cfg.windowMs →
      (isAllowed cfg (callSeq cfg st k (t0 :: ts)) k u).1.allowed = false ∧
      (isAllowed cfg (callSeq cfg st k (t0 :: ts)) k v).1 =
        ⟨true, v + cfg.windowMs, (cfg.maxRequests : Int) - 1⟩ ∧
      rlGet (isAllowed cfg (callSeq cfg st k (t0 :: ts)) k v).2 k =
        some ⟨1, v + cfg.windowMs⟩) := by
  refine ⟨isAllowed_fresh cfg st k now,
    fun e => isAllowed_deny cfg st k now e,
    fun e => isAllowed_increment cfg st k now e, ?_⟩
  intro t0 ts u v hfreshSt hN hlen hwin hu hv
  have hstep1 : callSeq cfg st k (t0 :: ts) =
      callSeq cfg (rlSet st k ⟨1, t0 + cfg.windowMs⟩) k ts := by
    rw [callSeq, isAllowed_fresh cfg st k t0 (Or.inl hfreshSt)]
  have hcount : rlGet (callSeq cfg st k (t0 :: ts)) k =
      some ⟨cfg.maxRequests, t0 + cfg.windowMs⟩ := by
    rw [hstep1]
    have := callSeq_in_window cfg k ts (rlSet st k ⟨1, t0 + cfg.windowMs⟩) 1
      (t0 + cfg.windowMs) (rlGet_rlSet ..) hN hwin
    rw [this]
    congr 2
    omega
  refine ⟨?_, ?_, ?_⟩
  · rw [isAllowed_deny cfg _ k u ⟨cfg.maxRequests, t0 + cfg.windowMs⟩ hcount hu
      (Nat.le_refl _)]
  · rw [isAllowed_fresh cfg _ k v (Or.inr ⟨_, hcount, hv⟩)]
  · rw [isAllowed_fresh cfg _ k v (Or.inr ⟨_, hcount, hv⟩)]
    exact rlGet_rlSet ..

def witnessKey : String := "203.0.113.7"

/-- Witness for C2: config `windowMs = 1000`, `maxRequests = 2`; calls at
times 0 and 1 fill the window, the call at time 2 is denied, and the call
at time 1000 reopens a fresh window. -/
theorem C2_rate_limiter_witness :
    (isAllowed ⟨1000, 2⟩ (callSeq ⟨1000, 2⟩ [] witnessKey [0, 1]) witnessKey 2).1.allowed = false ∧
    (isAllowed ⟨1000, 2⟩ (callSeq ⟨1000, 2⟩ [] witnessKey [0, 1]) witnessKey 1000).1 =
      ⟨true, 2000, 1⟩ ∧
    rlGet (isAllowed ⟨1000, 2⟩ (callSeq ⟨1000, 2⟩ [] witnessKey [0, 1]) witnessKey 1000).2
      witnessKey = some ⟨1, 2000⟩ :=
  (C2_rate_limiter ⟨1000, 2⟩ [] witnessKey 0).2.2.2 0 [1] 2 1000 rfl (by decide) (by decide)
    (by decide) (by decide) (by decide)

/-! ### Claims C1, C7, C10: gateway behaviour -/

/-- The gateway state after any POST request is exactly the result of both
`isAllowed` calls, whatever the verdicts and whatever happens later in the
pipeline. -/
theorem submitPlan_state_eq (parseDate : String → Option Int) (lowBound highBound : Int)
    (nowIso subId : String) (notifier : NotifierOutcome) (req : HttpReq)
    (st : GatewayState) (now : Nat) (hmethod : req.method = "POST") :
    (submitPlan parseDate lowBound highBound nowIso subId notifier req st now).2 =
      ⟨(isAllowed globalRateLimitConfig st.globalSt globalKey now).2,
       (isAllowed submitPlanRateLimitConfig st.perIpSt (clientIPOf req) now).2⟩ := by
  unfold submitPlan
  rw [hmethod]
  simp only [optionsMethod, postMethod, String.reduceEq, Bool.false_eq_true, if_false,
    ite_not, ne_eq, not_false_iff, if_true]
  split
  · rfl
  · split
    · rfl
    · split
      · rfl
      · split
        · rfl
        · rfl

/-- `injectMeta` preserves the body's shape class: objects stay objects and
everything else is untouched. -/
theorem injectMeta_isTruthyObject (j : Json) (ua : Option String) (ip : String) :
    (injectMeta j ua ip).isTruthyObject = j.isTruthyObject := by
  cases j <;> rfl

/-- A validated payload passed the body-existence gate. -/
theorem isTruthyObject_of_valid (parseDate : String → Option Int)
    (lowBound highBound : Int) (nowIso : String) (data : Json)
    (h : (validatePlanSubmission parseDate lowBound highBound nowIso data).isValid = true) :
    data.isTruthyObject = true := by
  by_contra hobj
  simp only [Bool.not_eq_true] at hobj
  unfold validatePlanSubmission at h
  simp [hobj] at h

/-- Claim C1: on the fully validated POST path, the response status is 200
and the body carries `emailSent`, whose value tracks the notifier's outcome
(`true` only when it resolved `true`); neither a `false` return nor a
thrown error changes the status. -/
theorem C1_gateway_status (parseDate : String → Option Int) (lowBound highBound : Int)
    (nowIso subId : String) (req : HttpReq) (st : GatewayState) (now : Nat) (j : Json)
    (hmethod : req.method = "POST") (hbody : req.body = some j)
    (hglobal : (isAllowed globalRateLimitConfig st.globalSt globalKey now).1.allowed = true)
    (hip : (isAllowed submitPlanRateLimitConfig st.perIpSt (clientIPOf req) now).1.allowed
        = true)
    (hvalid : (validatePlanSubmission parseDate lowBound highBound nowIso
        (injectMeta j req.userAgent (clientIPOf req))).isValid = true) :
    ∀ notifier : NotifierOutcome,
      (submitPlan parseDate lowBound highBound nowIso subId notifier req st now).1.status
          = 200 ∧
      (submitPlan parseDate lowBound highBound nowIso subId notifier req st now).1.emailSent
          = some (emailSentOf notifier) := by
  intro notifier
  have hobj : j.isTruthyObject = true := by
    rw [← injectMeta_isTruthyObject j req.userAgent (clientIPOf req)]
    exact isTruthyObject_of_valid parseDate lowBound highBound nowIso _ hvalid
  unfold submitPlan
  rw [hmethod]
  simp only [optionsMethod, postMethod, String.reduceEq, Bool.false_eq_true, if_false,
    hbody, hglobal, hip, hvalid, hobj, Bool.not_true, Bool.or_self, Bool.not_false, if_true]
  exact ⟨rfl, rfl⟩

set_option maxRecDepth 40000 in
/-- Witness for C1: the notifier throws, the request still gets 200 with
`emailSent = false`. -/
theorem C1_gateway_status_witness :
    (submitPlan trivialParseDate 0 0 isoStamp subIdSample .threw sampleReq ⟨[], []⟩ 0).1.status
        = 200 ∧
    (submitPlan trivialParseDate 0 0 isoStamp subIdSample .threw sampleReq ⟨[], []⟩ 0).1.emailSent
        = some false :=
  C1_gateway_status trivialParseDate 0 0 isoStamp subIdSample sampleReq ⟨[], []⟩ 0
    validPayload rfl rfl rfl rfl rfl .threw

/-- Claim C7 (counterexample): a POST that reaches the rate-limit check
while the per-IP window is full leaves the per-IP map completely unchanged
— the denying limiter does not mutate its own counter (its `deny` branch
performs no write), so it is not the case that both limiters mutate their
counters on every request reaching the check. -/
theorem C7_counterexample :
    (submitPlan trivialParseDate 0 0 isoStamp subIdSample .sent sampleReq
        perIpCappedState 0).1.status = 429 ∧
    (submitPlan trivialParseDate 0 0 isoStamp subIdSample .sent sampleReq
        perIpCappedState 0).2.perIpSt = perIpCappedState.perIpSt ∧
    (submitPlan trivialParseDate 0 0 isoStamp subIdSample .sent sampleReq
        perIpCappedState 0).2.globalSt ≠ perIpCappedState.globalSt :=
  ⟨rfl, rfl, by decide⟩

/-- Claim C7 (amended): on every POST reaching the rate-limit check, both
`isAllowed` calls execute unconditionally and each limiter's map evolves
exactly as its own `isAllowed` dictates, independent of the other's
verdict.  In particular a request denied by the global limiter still
consumes one slot of the per-IP budget whenever the per-IP window is
active with remaining capacity, and vice versa; a limiter whose own window
is full leaves its own counter unchanged. -/
theorem C7_rate_limit_independence (parseDate : String → Option Int)
    (lowBound highBound : Int) (nowIso subId : String) (notifier : NotifierOutcome)
    (req : HttpReq) (st : GatewayState) (now : Nat) (hmethod : req.method = "POST") :
    ((submitPlan parseDate lowBound highBound nowIso subId notifier req st now).2.globalSt =
        (isAllowed globalRateLimitConfig st.globalSt globalKey now).2 ∧
     (submitPlan parseDate lowBound highBound nowIso subId notifier req st now).2.perIpSt =
        (isAllowed submitPlanRateLimitConfig st.perIpSt (clientIPOf req) now).2) ∧
    (∀ e : RateLimitEntry,
      (isAllowed globalRateLimitConfig st.globalSt globalKey now).1.allowed = false →
      rlGet st.perIpSt (clientIPOf req) = some e → now < e.resetTime →
      e.count < submitPlanRateLimitConfig.maxRequests →
      rlGet (submitPlan parseDate lowBound highBound nowIso subId notifier req st now).2.perIpSt
          (clientIPOf req) = some ⟨e.count + 1, e.resetTime⟩) ∧
    (∀ e : RateLimitEntry,
      (isAllowed submitPlanRateLimitConfig st.perIpSt (clientIPOf req) now).1.allowed = false →
      rlGet st.globalSt globalKey = some e → now < e.resetTime →
      e.count < globalRateLimitConfig.maxRequests →
      rlGet (submitPlan parseDate lowBound highBound nowIso subId notifier req st now).2.globalSt
          globalKey = some ⟨e.count + 1, e.resetTime⟩) := by
  have hstate := submitPlan_state_eq parseDate lowBound highBound nowIso subId notifier
    req st now hmethod
  refine ⟨⟨by rw [hstate], by rw [hstate]⟩, ?_, ?_⟩
  · intro e _ hget hwin hroom
    rw [hstate]
    show rlGet (isAllowed submitPlanRateLimitConfig st.perIpSt (clientIPOf req) now).2
      (clientIPOf req) = some ⟨e.count + 1, e.resetTime⟩
    rw [isAllowed_increment submitPlanRateLimitConfig st.perIpSt (clientIPOf req) now e
      hget hwin hroom]
    exact rlGet_rlSet ..
  · intro e _ hget hwin hroom
    rw [hstate]
    show rlGet (isAllowed globalRateLimitConfig st.globalSt globalKey now).2 globalKey =
      some ⟨e.count + 1, e.resetTime⟩
    rw [isAllowed_increment globalRateLimitConfig st.globalSt globalKey now e
      hget hwin hroom]
    exact rlGet_rlSet ..

/-- Witness for C7: the global window is full, the request is denied, yet
the per-IP count still climbs from 3 to 4. -/
theorem C7_rate_limit_independence_witness :
    ((submitPlan trivialParseDate 0 0 isoStamp subIdSample .sent sampleReq
        globalCappedState 0).2.globalSt =
       (isAllowed globalRateLimitConfig globalCappedState.globalSt globalKey 0).2 ∧
     (submitPlan trivialParseDate 0 0 isoStamp subIdSample .sent sampleReq
        globalCappedState 0).2.perIpSt =
       (isAllowed submitPlanRateLimitConfig globalCappedState.perIpSt
          (clientIPOf sampleReq) 0).2) ∧
    rlGet (submitPlan trivialParseDate 0 0 isoStamp subIdSample .sent sampleReq
        globalCappedState 0).2.perIpSt (clientIPOf sampleReq) =
      some ⟨4, 1000000000⟩ :=
  ⟨(C7_rate_limit_independence trivialParseDate 0 0 isoStamp subIdSample .sent sampleReq
      globalCappedState 0 rfl).1,
   (C7_rate_limit_independence trivialParseDate 0 0 isoStamp subIdSample .sent sampleReq
      globalCappedState 0 rfl).2.1 ⟨3, 1000000000⟩ rfl rfl (by decide) (by decide)⟩

/-- The whole-payload gates force rejection whatever the fields hold. -/
theorem validate_invalid_of_gates (parseDate : String → Option Int)
    (lowBound highBound : Int) (nowIso : String) (data : Json)
    (h : isSuspicious data.stringify = true ∨ data.stringify.length > 10000) :
    (validatePlanSubmission parseDate lowBound highBound nowIso data).isValid = false := by
  unfold validatePlanSubmission
  by_cases hobj : data.isTruthyObject = true
  · rcases h with h | h
    · simp [hobj, h]
    · by_cases hsus : isSuspicious data.stringify = true
      · simp [hobj, hsus]
      · simp only [Bool.not_eq_true] at hsus
        simp [hobj, hsus, h]
  · simp only [Bool.not_eq_true] at hobj
    simp [hobj]

/-- Claim C10: for a POST whose parsed body is an object (as every body
with valid fields is — on a primitive or `null` body the strict-mode
metadata assignment throws and the outer catch answers 500 instead), the
gateway injects the `User-Agent` header and detected client IP into the
body before validation (visible in the argument of
`validatePlanSubmission` below), so the whole-payload gates apply to those
header values: if the injected body trips the pattern scan or the size
limit, the response is a 400 validation failure carrying the validator's
errors — even when every original body field is valid. -/
theorem C10_header_injection (parseDate : String → Option Int) (lowBound highBound : Int)
    (nowIso subId : String) (notifier : NotifierOutcome) (req : HttpReq)
    (st : GatewayState) (now : Nat) (j : Json)
    (hmethod : req.method = "POST") (hbody : req.body = some j)
    (hobj : j.isTruthyObject = true)
    (hglobal : (isAllowed globalRateLimitConfig st.globalSt globalKey now).1.allowed = true)
    (hip : (isAllowed submitPlanRateLimitConfig st.perIpSt (clientIPOf req) now).1.allowed
        = true)
    (hgate : isSuspicious (injectMeta j req.userAgent (clientIPOf req)).stringify = true ∨
      (injectMeta j req.userAgent (clientIPOf req)).stringify.length > 10000) :
    (submitPlan parseDate lowBound highBound nowIso subId notifier req st now).1.status
        = 400 ∧
    (submitPlan parseDate lowBound highBound nowIso subId notifier req st now).1.success
        = some false ∧
    (submitPlan parseDate lowBound highBound nowIso subId notifier req st now).1.details
        = some (validatePlanSubmission parseDate lowBound highBound nowIso
            (injectMeta j req.userAgent (clientIPOf req))).errors := by
  have hinvalid := validate_invalid_of_gates parseDate lowBound highBound nowIso
    (injectMeta j req.userAgent (clientIPOf req)) hgate
  unfold submitPlan
  rw [hmethod]
  simp only [optionsMethod, postMethod, String.reduceEq, Bool.false_eq_true, if_false,
    hbody, hobj, hglobal, hip, hinvalid, Bool.not_true, Bool.or_self, Bool.not_false,
    if_true]
  exact ⟨rfl, rfl, rfl⟩

set_option maxRecDepth 40000 in
/-- Witness for C10: all body fields valid, but the `User-Agent` header is
`javascript:alert(1)`; the injected payload trips the pattern scan and the
request is rejected with 400. -/
theorem C10_header_injection_witness :
    isSuspicious (injectMeta validPayload uaAttackReq.userAgent
      (clientIPOf uaAttackReq)).stringify = true ∧
    (submitPlan trivialParseDate 0 0 isoStamp subIdSample .sent uaAttackReq ⟨[], []⟩ 0).1.status
        = 400 ∧
    (submitPlan trivialParseDate 0 0 isoStamp subIdSample .sent uaAttackReq ⟨[], []⟩ 0).1.success
        = some false :=
  ⟨rfl,
   (C10_header_injection trivialParseDate 0 0 isoStamp subIdSample .sent uaAttackReq
      ⟨[], []⟩ 0 validPayload rfl rfl rfl rfl rfl (Or.inl rfl)).1,
   (C10_header_injection trivialParseDate 0 0 isoStamp subIdSample .sent uaAttackReq
      ⟨[], []⟩ 0 validPayload rfl rfl rfl rfl rfl (Or.inl rfl)).2.1⟩

/-- The strict-mode throw path: a POST whose parsed body is a primitive or
`null` (here the valid JSON body `"javascript:alert(1)"`) is answered 500
by the outer catch — not routed through the validator. -/
theorem submitPlan_primitive_body_500 :
    (submitPlan trivialParseDate 0 0 isoStamp subIdSample .sent
        { sampleReq with body := some stringBodyPayload } ⟨[], []⟩ 0).1.status = 500 :=
  rfl



/-! ### Claim C9: HTML-escaping of interpolated fields -/

theorem startsWithL_append_self (p t : List Char) : startsWithL p (p ++ t) = true := by
  induction p with
  | nil => rfl
  | cons c rest ih => simp [startsWithL, ih]

theorem chunkSafeL_cons_plain (c : Char) (t : List Char) (h : plainChar c = true) :
    chunkSafeL (c :: t) = chunkSafeL t := by
  unfold plainChar at h
  simp only [Bool.not_eq_true', Bool.or_eq_false_iff, decide_eq_false_iff_not] at h
  obtain ⟨⟨⟨⟨h1, h2⟩, h3⟩, h4⟩, h5⟩ := h
  simp [chunkSafeL, h1, h2, h3, h4, h5]

theorem chunkSafeL_append_plain (p t : List Char)
    (h : ∀ c ∈ p, plainChar c = true) : chunkSafeL (p ++ t) = chunkSafeL t := by
  induction p with
  | nil => rfl
  | cons c rest ih =>
    rw [List.cons_append, chunkSafeL_cons_plain c _ (h c (List.mem_cons_self ..))]
    exact ih (fun x hx => h x (List.mem_cons_of_mem _ hx))

theorem chunkSafeL_of_all_plain (l : List Char)
    (h : ∀ c ∈ l, plainChar c = true) : chunkSafeL l = true := by
  induction l with
  | nil => rfl
  | cons c rest ih =>
    rw [chunkSafeL_cons_plain c _ (h c (List.mem_cons_self ..))]
    exact ih (fun x hx => h x (List.mem_cons_of_mem _ hx))

theorem chunkSafeL_entity_cons (tail t : List Char)
    (hstart : isEntityTail (tail ++ t) = true)
    (hplain : ∀ c ∈ tail, plainChar c = true)
    (ht : chunkSafeL t = true) :
    chunkSafeL (('&' :: tail) ++ t) = true := by
  show chunkSafeL ('&' :: (tail ++ t)) = true
  simp [chunkSafeL, hstart, chunkSafeL_append_plain tail t hplain, ht]

theorem escapeHtmlChar_plain (c : Char) (h : plainChar c = true) :
    escapeHtmlChar c = [c] := by
  unfold plainChar at h
  simp only [Bool.not_eq_true', Bool.or_eq_false_iff, decide_eq_false_iff_not] at h
  obtain ⟨⟨⟨⟨h1, h2⟩, h3⟩, h4⟩, h5⟩ := h
  simp [escapeHtmlChar, h1, h2, h3, h4, h5]

theorem chunkSafeL_escapeHtmlL (l : List Char) : chunkSafeL (escapeHtmlL l) = true := by
  induction l with
  | nil => rfl
  | cons c rest ih =>
    have hstep : escapeHtmlL (c :: rest) = escapeHtmlChar c ++ escapeHtmlL rest := by
      simp [escapeHtmlL]
    rw [hstep]
    by_cases h1 : c = '&'
    · subst h1
      exact chunkSafeL_entity_cons ampTail _
        (by simp [isEntityTail, startsWithL_append_self]) (by decide) ih
    by_cases h2 : c = '<'
    · subst h2
      exact chunkSafeL_entity_cons ltTail _
        (by simp [isEntityTail, startsWithL_append_self]) (by decide) ih
    by_cases h3 : c = '>'
    · subst h3
      exact chunkSafeL_entity_cons gtTail _
        (by simp [isEntityTail, startsWithL_append_self]) (by decide) ih
    by_cases h4 : c = '"'
    · subst h4
      exact chunkSafeL_entity_cons quotTail _
        (by simp [isEntityTail, startsWithL_append_self]) (by decide) ih
    by_cases h5 : c = '\''
    · subst h5
      exact chunkSafeL_entity_cons aposTail _
        (by simp [isEntityTail, startsWithL_append_self]) (by decide) ih
    have hplain : plainChar c = true := by
      simp [plainChar, h1, h2, h3, h4, h5]
    rw [escapeHtmlChar_plain c hplain, List.singleton_append,
      chunkSafeL_cons_plain c _ hplain]
    exact ih

/-- Every `escapeHtml` output is chunk-safe. -/
theorem escapeHtml_chunkSafe (s : String) : chunkSafe (escapeHtml s) = true :=
  chunkSafeL_escapeHtmlL s.data

theorem plainChar_of_digit (c : Char) (h : isAsciiDigit c = true) :
    plainChar c = true := by
  unfold isAsciiDigit at h
  simp only [Bool.and_eq_true, decide_eq_true_eq] at h
  unfold plainChar
  simp only [Bool.not_eq_true', Bool.or_eq_false_iff, decide_eq_false_iff_not]
  refine ⟨⟨⟨⟨?_, ?_⟩, ?_⟩, ?_⟩, ?_⟩ <;>
    (intro hc; subst hc; revert h; decide)

theorem digitChar_ascii (x : Nat) (h : x < 10) :
    isAsciiDigit (Char.ofNat (48 + x)) = true := by
  interval_cases x <;> decide

theorem natDigitsAux_digits (fuel : Nat) :
    ∀ (n : Nat) (acc : List Char), (∀ c ∈ acc, isAsciiDigit c = true) →
      ∀ c ∈ natDigitsAux fuel n acc, isAsciiDigit c = true := by
  induction fuel with
  | zero => intro n acc hacc c hc; exact hacc c hc
  | succ fuel ih =>
    intro n acc hacc c hc
    unfold natDigitsAux at hc
    split at hc
    · next hlt =>
      rcases List.mem_cons.mp hc with hc | hc
      · subst hc; exact digitChar_ascii n hlt
      · exact hacc c hc
    · refine ih (n / 10) _ ?_ c hc
      intro x hx
      rcases List.mem_cons.mp hx with hx | hx
      · subst hx; exact digitChar_ascii (n % 10) (Nat.mod_lt n (by omega))
      · exact hacc x hx

theorem natDigits_plain (n : Nat) : ∀ c ∈ natDigits n, plainChar c = true :=
  fun c hc => plainChar_of_digit c
    (natDigitsAux_digits (n + 1) n [] (by intro x hx; cases hx) c hc)

theorem twoDigits_plain (n : Nat) : ∀ c ∈ twoDigits n, plainChar c = true := by
  intro c hc
  unfold twoDigits at hc
  split at hc
  · rcases List.mem_cons.mp hc with hc | hc
    · subst hc; decide
    · exact natDigits_plain n c hc
  · exact natDigits_plain n c hc

/-- All-plain strings, closed under append. -/
def allPlainStr (s : String) : Prop := ∀ c ∈ s.data, plainChar c = true

theorem allPlainStr_append (a b : String) (ha : allPlainStr a) (hb : allPlainStr b) :
    allPlainStr (a ++ b) := by
  intro c hc
  rw [String.data_append] at hc
  rcases List.mem_append.mp hc with hc | hc
  · exact ha c hc
  · exact hb c hc

theorem allPlainStr_listGetD (names : List String)
    (h : ∀ s ∈ names, allPlainStr s) (i : Nat) : allPlainStr (listGetD names i) := by
  unfold listGetD
  split
  · next s heq => exact h s (List.get?_mem heq)
  · intro c hc; cases hc

theorem weekdayNames_plain : ∀ s ∈ weekdayNames, allPlainStr s := by
  intro s hs
  fin_cases hs <;> (intro c hc; fin_cases hc <;> decide)

theorem monthNames_plain : ∀ s ∈ monthNames, allPlainStr s := by
  intro s hs
  fin_cases hs <;> (intro c hc; fin_cases hc <;> decide)

theorem formatDate_chunkSafe (s : String) : chunkSafe (formatDate s) = true := by
  unfold formatDate
  split
  · next y m d _ =>
    apply chunkSafeL_of_all_plain
    have h1 := allPlainStr_listGetD weekdayNames weekdayNames_plain (weekdayIndex y m d)
    have h2 := allPlainStr_listGetD monthNames monthNames_plain (m - 1)
    have h3 : allPlainStr commaSpace := by intro c hc; fin_cases hc <;> decide
    have h4 : allPlainStr spaceStr := by intro c hc; fin_cases hc <;> decide
    have h5 : allPlainStr (String.mk (natDigits d)) := natDigits_plain d
    have h6 : allPlainStr (String.mk (natDigits y)) := natDigits_plain y
    refine allPlainStr_append _ _ ?_ h6
    refine allPlainStr_append _ _ ?_ h3
    refine allPlainStr_append _ _ ?_ h5
    refine allPlainStr_append _ _ ?_ h4
    refine allPlainStr_append _ _ ?_ h2
    exact allPlainStr_append _ _ h1 h3
  · decide

theorem formatDateTime_chunkSafe (s : String) : chunkSafe (formatDateTime s) = true := by
  unfold formatDateTime
  split
  · next y m d h mi _ =>
    apply chunkSafeL_of_all_plain
    have h1 := allPlainStr_listGetD weekdayNames weekdayNames_plain (weekdayIndex y m d)
    have h2 := allPlainStr_listGetD monthNames monthNames_plain (m - 1)
    have h3 : allPlainStr commaSpace := by intro c hc; fin_cases hc <;> decide
    have h4 : allPlainStr spaceStr := by intro c hc; fin_cases hc <;> decide
    have h5 : allPlainStr (String.mk (natDigits d)) := natDigits_plain d
    have h6 : allPlainStr (String.mk (natDigits y)) := natDigits_plain y
    have h7 : allPlainStr atSeparator := by intro c hc; fin_cases hc <;> decide
    have h8 : allPlainStr (String.mk (twoDigits (hour12 h))) := twoDigits_plain (hour12 h)
    have h9 : allPlainStr colonStr := by intro c hc; fin_cases hc <;> decide
    have h10 : allPlainStr (String.mk (twoDigits mi)) := twoDigits_plain mi
    have h11 : allPlainStr (if h < 12 then amUtc else pmUtc) := by
      split <;> (intro c hc; fin_cases hc <;> decide)
    refine allPlainStr_append _ _ ?_ h11
    refine allPlainStr_append _ _ ?_ h10
    refine allPlainStr_append _ _ ?_ h9
    refine allPlainStr_append _ _ ?_ h8
    refine allPlainStr_append _ _ ?_ h7
    refine allPlainStr_append _ _ ?_ h6
    refine allPlainStr_append _ _ ?_ h3
    refine allPlainStr_append _ _ ?_ h5
    refine allPlainStr_append _ _ ?_ h4
    refine allPlainStr_append _ _ ?_ h2
    exact allPlainStr_append _ _ h1 h3
  · decide

/-- Claim C9: the HTML body places every submission field into the template
through a safe chunk: `name`, `time`, each activity, the custom activity,
`userAgent` and `ipAddress` are interpolated as `escapeHtml` of the field,
and `date`/`submittedAt` through the locale date formatting, whose output
contains no special character at all.  Every such chunk is chunk-safe: it
contains no raw `<`, `>`, `"` or `'`, and every `&` in it starts one of the
five entities — so the special characters of any field appear in the
generated HTML only in entity-escaped form, for every submission,
regardless of the validator\'s own sanitization. -/
theorem C9_email_escaping (plan : PlanSubmission) :
    generateEmailTemplate plan =
      emailTmpl0 ++ escapeHtml plan.name ++
      emailTmpl1 ++ formatDate plan.date ++
      emailTmpl2 ++ escapeHtml plan.time ++
      emailTmpl3 ++ activitiesHtml plan.activities ++
      emailTmpl4 ++ customActivitySection plan.customActivity ++
      emailTmpl5 ++ formatDateTime plan.submittedAt ++
      emailTmpl6 ++ escapeHtml (orUnknown plan.userAgent) ++
      emailTmpl7 ++ escapeHtml (orUnknown plan.ipAddress) ++
      emailTmpl8 ∧
    activitiesHtml plan.activities =
      String.join (plan.activities.map (fun a => liOpen ++ escapeHtml a ++ liClose)) ∧
    chunkSafe (escapeHtml plan.name) = true ∧
    chunkSafe (formatDate plan.date) = true ∧
    chunkSafe (escapeHtml plan.time) = true ∧
    (∀ a ∈ plan.activities, chunkSafe (escapeHtml a) = true) ∧
    (∀ c, plan.customActivity = some c → chunkSafe (escapeHtml c) = true) ∧
    chunkSafe (formatDateTime plan.submittedAt) = true ∧
    chunkSafe (escapeHtml (orUnknown plan.userAgent)) = true ∧
    chunkSafe (escapeHtml (orUnknown plan.ipAddress)) = true :=
  ⟨rfl, rfl, escapeHtml_chunkSafe plan.name, formatDate_chunkSafe plan.date,
   escapeHtml_chunkSafe plan.time, fun a _ => escapeHtml_chunkSafe a,
   fun c _ => escapeHtml_chunkSafe c, formatDateTime_chunkSafe plan.submittedAt,
   escapeHtml_chunkSafe (orUnknown plan.userAgent),
   escapeHtml_chunkSafe (orUnknown plan.ipAddress)⟩

/-- Witness for C9: the sample submission with specials in every field; its
activity and custom-activity chunks are safe, with the membership
hypotheses discharged concretely. -/
theorem C9_email_escaping_witness :
    chunkSafe (escapeHtml samplePlan.name) = true ∧
    chunkSafe (escapeHtml "Dinner & drinks") = true ∧
    chunkSafe (escapeHtml "Movie 'Alien'") = true :=
  ⟨(C9_email_escaping samplePlan).2.2.1,
   (C9_email_escaping samplePlan).2.2.2.2.2.1 _ (by decide),
   (C9_email_escaping samplePlan).2.2.2.2.2.2.1 _ (by decide)⟩

end Hangout
